import Mathlib

/-!
Verification of the Delegated Account Recovery reference implementation
(token codec, countersigned-token validation, origin validator, signature
verification and the token-status endpoint), shallowly embedded from the
JavaScript SDK (`sdk/js-src/index.js`), the Java SDK
(`sdk/java-src/.../RecoveryToken.java`, `CountersignedRecoveryToken.java`,
`DelegatedRecoveryUtils.java`) and the two example token-status routes.

Bytes are modelled as natural numbers (< 256 on real buffers); buffers and
ASCII strings are `List Nat` (strings by their character codes).  ECDSA
verification is kept abstract as a boolean-valued parameter, matching the
SDKs' use of an opaque crypto library.
-/

/-- A byte buffer (entries are byte values) or an ASCII string (entries are
character codes). -/
abbrev Bytes := List Nat

/-- `Buffer.readUInt8(i)` / Java `decoded[i]`: a single array read that fails
(throws) when the index is out of bounds. -/
def readU8 (l : Bytes) (i : Nat) : Option Nat := l[i]?

/-- `Buffer.readUInt16BE(i)`: big-endian 16-bit read, failing when out of
bounds.  The Java SDK's `decoded[i] << 8 & 0xFF00 | decoded[i+1] & 0xFF`
computes the same value on byte inputs; the `% 256` masks mirror the `& 0xFF`
masking of the sign-extended Java bytes. -/
def readU16 (l : Bytes) (i : Nat) : Option Nat :=
  match l[i]?, l[i+1]? with
  | some a, some b => some ((a % 256) * 256 + (b % 256))
  | _, _ => none

/-- `Buffer.slice(start, start + len)`: clamps to the buffer, never throws. -/
def bslice (l : Bytes) (start len : Nat) : Bytes :=
  (l.drop start).take len

/-- Big-endian 16-bit encoding as written by `Buffer.writeUInt16BE` (the
writer throws on values above 0xFFFF before this encoding is used). -/
def u16be (n : Nat) : Bytes := [n / 256, n % 256]

/-- Node's `buf.toString('ascii')` masks every byte to 7 bits. -/
def asciiDecodeJs (l : Bytes) : Bytes := l.map (fun b => b % 128)

/-- Java's `new String(bytes, "US-ASCII")` maps bytes ≥ 0x80 to U+FFFD. -/
def asciiDecodeJava (l : Bytes) : Bytes :=
  l.map (fun b => if b < 128 then b else 65533)

/-- Node's `new Buffer(str, 'ascii')` keeps the low byte of each char code. -/
def asciiEncode (l : Bytes) : Bytes := l.map (fun c => c % 256)

/-- The parsed field record produced by `RecoveryToken.deserialize` in the JS
SDK (the signature start offset is stored under the name `signatureIndex`). -/
structure TokenFields where
  version : Nat
  type : Nat
  id : Bytes
  options : Nat
  issuer : Bytes
  audience : Bytes
  issuedTime : Bytes
  data : Bytes
  binding : Bytes
  raw : Bytes
  signatureIndex : Nat
  signature : Bytes
deriving DecidableEq, Repr

/-- `RecoveryToken.deserialize` (JS SDK, index.js lines 134-173): fixed-offset
reads with `readUInt8`/`readUInt16BE` (which throw out of bounds, here
`none`) and `slice` (which clamps silently).  After the binding field no read
remains, so an overrunning binding length is not detected. -/
def jsDeserialize (l : Bytes) : Option TokenFields :=
  (readU8 l 0).bind fun version =>
  (readU8 l 1).bind fun type =>
  let id := bslice l 2 16
  (readU8 l 18).bind fun options =>
  (readU16 l 19).bind fun issuerLength =>
  let issuer := asciiDecodeJs (bslice l 21 issuerLength)
  (readU16 l (21 + issuerLength)).bind fun audienceLength =>
  let o1 := 21 + issuerLength + 2
  let audience := asciiDecodeJs (bslice l o1 audienceLength)
  (readU16 l (o1 + audienceLength)).bind fun issuedTimeLength =>
  let o2 := o1 + audienceLength + 2
  let issuedTime := asciiDecodeJs (bslice l o2 issuedTimeLength)
  (readU16 l (o2 + issuedTimeLength)).bind fun dataLength =>
  let o3 := o2 + issuedTimeLength + 2
  let data := bslice l o3 dataLength
  (readU16 l (o3 + dataLength)).bind fun bindingLength =>
  let o4 := o3 + dataLength + 2
  let binding := bslice l o4 bindingLength
  let o5 := o4 + bindingLength
  some { version := version, type := type, id := id, options := options,
         issuer := issuer, audience := audience, issuedTime := issuedTime,
         data := data, binding := binding,
         raw := l.take o5, signatureIndex := o5, signature := l.drop o5 }

/-- The canonical serialized layout written by the `RecoveryToken`
constructor (index.js lines 85-117): version, type, 16-byte id, options,
then five length-prefixed fields.  String fields are written through
`new Buffer(·, 'ascii')`. -/
def rawLayout (version type : Nat) (id : Bytes) (options : Nat)
    (issuer audience issuedTime data binding : Bytes) : Bytes :=
  [version, type] ++ id ++ [options] ++
  (u16be issuer.length ++ (asciiEncode issuer ++
  (u16be audience.length ++ (asciiEncode audience ++
  (u16be issuedTime.length ++ (asciiEncode issuedTime ++
  (u16be data.length ++ (data ++
  (u16be binding.length ++ binding)))))))))

example : readU16 [1, 2, 0, 300] 2 = some 44 := by decide

example :
    jsDeserialize ([0, 0] ++ List.replicate 16 7 ++ [1] ++
        [0, 2] ++ [104, 105] ++ [0, 0] ++ [0, 0] ++ [0, 1] ++ [9] ++
        [0, 0] ++ [200, 201]) =
      some { version := 0, type := 0, id := List.replicate 16 7, options := 1,
             issuer := [104, 105], audience := [], issuedTime := [],
             data := [9], binding := [],
             raw := [0, 0] ++ List.replicate 16 7 ++ [1] ++
               [0, 2] ++ [104, 105] ++ [0, 0] ++ [0, 0] ++ [0, 1] ++ [9] ++
               [0, 0],
             signatureIndex := 32, signature := [200, 201] } := by decide

/-! ## Origin validator (index.js line 30; DelegatedRecoveryUtils lines 46-47, 184-189) -/

/-- `[a-z]` character class (by code point). -/
def isLowerB (c : Nat) : Bool := 97 ≤ c && c ≤ 122

/-- `[0-9]` / `\d` character class. -/
def isDigitB (c : Nat) : Bool := 48 ≤ c && c ≤ 57

/-- `[a-z0-9-]` character class. -/
def isLabelB (c : Nat) : Bool := isLowerB c || isDigitB c || c == 45

/-- Split a string at every `.` (code 46), keeping empty components. -/
def splitDots : Bytes → List Bytes
  | [] => [[]]
  | c :: rest =>
    if c = 46 then [] :: splitDots rest
    else
      match splitDots rest with
      | [] => [[c]]
      | h :: t => (c :: h) :: t

/-- Split a string at the first `:` (code 58), if any. -/
def splitColon : Bytes → Bytes × Option Bytes
  | [] => ([], none)
  | c :: rest =>
    if c = 58 then ([], some rest)
    else
      let r := splitColon rest
      (c :: r.1, r.2)

/-- One DNS label: `[a-z0-9-]{1,63}`. -/
def labelOk (p : Bytes) : Bool := 1 ≤ p.length && p.length ≤ 63 && p.all isLabelB

/-- The TLD: `[a-z]{2,63}`. -/
def tldOk (p : Bytes) : Bool := 2 ≤ p.length && p.length ≤ 63 && p.all isLowerB

/-- The host part `([a-z0-9-]{1,63}\.)+[a-z]{2,63}`: because label and TLD
characters exclude `.`, the regex decomposition is exactly the split at every
dot. -/
def hostOk (h : Bytes) : Bool :=
  let ps := splitDots h
  2 ≤ ps.length && ps.dropLast.all labelOk &&
    (match ps.getLast? with | some t => tldOk t | none => false)

/-- The optional port `(:[0-9]+)?`. -/
def portOk : Option Bytes → Bool
  | none => true
  | some p => !p.isEmpty && p.all isDigitB

/-- The origin validator: the anchored pattern
`^https:\/\/([a-z0-9-]{1,63}\.)+([a-z]{2,63})(:[\d]+)?$` used via
`String.search` in the JS SDK (accept iff match at index 0, which with the
anchors means a whole-string match) and via `Matcher.matches()` in the Java
SDK.  Host and port characters exclude `:`, so the regex match splits the
input at the first `:`. -/
def originMatch (s : Bytes) : Bool :=
  match s with
  | 104 :: 116 :: 116 :: 112 :: 115 :: 58 :: 47 :: 47 :: rest =>
      let r := splitColon rest
      hostOk r.1 && portOk r.2
  | _ => false

/-- The spec's origin grammar, by its words: literal `https://`, one or more
labels of 1..63 chars from `[a-z0-9-]` each followed by `.`, a TLD of 2..63
`[a-z]`, and an optional `:` followed by one or more digits; nothing after. -/
def OriginSpec (s : Bytes) : Prop :=
  ∃ (labels : List Bytes) (tld : Bytes) (port : Option Bytes),
    labels ≠ [] ∧
    (∀ lab ∈ labels, 1 ≤ lab.length ∧ lab.length ≤ 63 ∧
      ∀ c ∈ lab, isLabelB c = true) ∧
    (2 ≤ tld.length ∧ tld.length ≤ 63 ∧ ∀ c ∈ tld, isLowerB c = true) ∧
    (∀ p ∈ port, p ≠ [] ∧ ∀ c ∈ p, isDigitB c = true) ∧
    s = [104, 116, 116, 112, 115, 58, 47, 47] ++
        (labels.map (fun lab => lab ++ [46])).flatten ++ tld ++
        (match port with | none => [] | some p => 58 :: p)

example : originMatch ([104,116,116,112,115,58,47,47] ++ [97,46,98,99]) = true := by decide

example : originMatch ([104,116,116,112,115,58,47,47] ++ [97,46,98,99,47]) = false := by decide

example : originMatch ([104,116,116,112,115,58,47,47] ++ [97,46,98,99,58,52,52,51]) = true := by
  decide

/-- Rejoin the components produced by `splitDots` with dots. -/
def joinDots : List Bytes → Bytes
  | [] => []
  | [p] => p
  | p :: q :: ps => p ++ 46 :: joinDots (q :: ps)

theorem splitDots_ne_nil (l : Bytes) : splitDots l ≠ [] := by
  induction l with
  | nil => simp [splitDots]
  | cons c rest ih =>
    simp only [splitDots]
    by_cases hc : c = 46
    · simp [hc]
    · simp only [hc, if_false]
      cases h : splitDots rest <;> simp

theorem joinDots_splitDots (l : Bytes) : joinDots (splitDots l) = l := by
  induction l with
  | nil => simp [splitDots, joinDots]
  | cons c rest ih =>
    simp only [splitDots]
    by_cases hc : c = 46
    · subst hc
      simp only [if_pos rfl]
      cases h : splitDots rest with
      | nil => exact absurd h (splitDots_ne_nil rest)
      | cons p ps =>
        rw [h] at ih
        simp [joinDots, ih]
    · simp only [hc, if_false]
      cases h : splitDots rest with
      | nil => exact absurd h (splitDots_ne_nil rest)
      | cons p ps =>
        rw [h] at ih
        cases ps with
        | nil => simpa [joinDots] using ih
        | cons q qs => simpa [joinDots] using ih

theorem splitDots_no_dot (l : Bytes) : ∀ p ∈ splitDots l, ∀ c ∈ p, c ≠ 46 := by
  induction l with
  | nil => simp [splitDots]
  | cons c rest ih =>
    simp only [splitDots]
    by_cases hc : c = 46
    · simpa [hc] using ih
    · simp only [hc, if_false]
      cases h : splitDots rest with
      | nil => simp [hc]
      | cons p ps =>
        rw [h] at ih
        intro q hq d hd
        rcases List.mem_cons.mp hq with hq1 | hq2
        · subst hq1
          rcases List.mem_cons.mp hd with hd1 | hd2
          · subst hd1; exact hc
          · exact ih p (List.mem_cons_self p ps) d hd2
        · exact ih q (List.mem_cons_of_mem p hq2) d hd

theorem splitDots_dotfree (p : Bytes) (h : ∀ c ∈ p, c ≠ 46) :
    splitDots p = [p] := by
  induction p with
  | nil => simp [splitDots]
  | cons c rest ih =>
    have hc : c ≠ 46 := h c (List.mem_cons_self c rest)
    have hrest : splitDots rest = [rest] :=
      ih (fun d hd => h d (List.mem_cons_of_mem c hd))
    simp [splitDots, hc, hrest]

theorem splitDots_append_dot (p rest : Bytes) (h : ∀ c ∈ p, c ≠ 46) :
    splitDots (p ++ 46 :: rest) = p :: splitDots rest := by
  induction p with
  | nil => simp [splitDots]
  | cons c q ih =>
    have hc : c ≠ 46 := h c (List.mem_cons_self c q)
    have hq := ih (fun d hd => h d (List.mem_cons_of_mem c hd))
    cases hs : splitDots rest with
    | nil => exact absurd hs (splitDots_ne_nil rest)
    | cons r rs => simp [splitDots, hc, hq, hs]

theorem splitColon_no_colon (l : Bytes) : ∀ c ∈ (splitColon l).1, c ≠ 58 := by
  induction l with
  | nil => simp [splitColon]
  | cons c rest ih =>
    simp only [splitColon]
    by_cases hc : c = 58
    · simp [hc]
    · simp only [hc, if_false]
      intro d hd
      rcases List.mem_cons.mp hd with hd1 | hd2
      · subst hd1; exact hc
      · exact ih d hd2

theorem splitColon_reconstruct (l : Bytes) :
    l = (splitColon l).1 ++
      (match (splitColon l).2 with | none => [] | some p => 58 :: p) := by
  induction l with
  | nil => simp [splitColon]
  | cons c rest ih =>
    simp only [splitColon]
    by_cases hc : c = 58
    · simp [hc]
    · simp only [hc, if_false]
      exact congrArg (c :: ·) ih

theorem splitColon_of_no_colon (l : Bytes) (h : ∀ c ∈ l, c ≠ 58) :
    splitColon l = (l, none) := by
  induction l with
  | nil => simp [splitColon]
  | cons c rest ih =>
    have hc : c ≠ 58 := h c (List.mem_cons_self c rest)
    have hrest := ih (fun d hd => h d (List.mem_cons_of_mem c hd))
    simp [splitColon, hc, hrest]

theorem splitColon_append (a p : Bytes) (h : ∀ c ∈ a, c ≠ 58) :
    splitColon (a ++ 58 :: p) = (a, some p) := by
  induction a with
  | nil => simp [splitColon]
  | cons c q ih =>
    have hc : c ≠ 58 := h c (List.mem_cons_self c q)
    have hq := ih (fun d hd => h d (List.mem_cons_of_mem c hd))
    simp [splitColon, hc, hq]

theorem isLabelB_ne_dot {c : Nat} (h : isLabelB c = true) : c ≠ 46 := by
  rintro rfl; exact absurd h (by decide)

theorem isLabelB_ne_colon {c : Nat} (h : isLabelB c = true) : c ≠ 58 := by
  rintro rfl; exact absurd h (by decide)

theorem isLowerB_ne_dot {c : Nat} (h : isLowerB c = true) : c ≠ 46 := by
  rintro rfl; exact absurd h (by decide)

theorem isLowerB_ne_colon {c : Nat} (h : isLowerB c = true) : c ≠ 58 := by
  rintro rfl; exact absurd h (by decide)

theorem joinDots_parts (labels : List Bytes) (tld : Bytes) :
    joinDots (labels ++ [tld]) =
      (labels.map (fun lab => lab ++ [46])).flatten ++ tld := by
  induction labels with
  | nil => simp [joinDots]
  | cons l ls ih =>
    cases ls with
    | nil => simp [joinDots]
    | cons m ms =>
      rw [List.cons_append] at ih
      rw [List.cons_append, List.cons_append]
      rw [show joinDots (l :: m :: (ms ++ [tld])) =
            l ++ 46 :: joinDots (m :: (ms ++ [tld])) from rfl, ih]
      simp

theorem splitDots_parts (labels : List Bytes) (tld : Bytes)
    (hl : ∀ lab ∈ labels, ∀ c ∈ lab, c ≠ 46) (ht : ∀ c ∈ tld, c ≠ 46) :
    splitDots ((labels.map (fun lab => lab ++ [46])).flatten ++ tld) =
      labels ++ [tld] := by
  induction labels with
  | nil => simpa using splitDots_dotfree tld ht
  | cons l ls ih =>
    have hrest := ih (fun lab hlab => hl lab (List.mem_cons_of_mem l hlab))
    have hfirst : ∀ c ∈ l, c ≠ 46 := hl l (List.mem_cons_self l ls)
    calc splitDots (((l :: ls).map (fun lab => lab ++ [46])).flatten ++ tld)
        = splitDots (l ++ 46 ::
            ((ls.map (fun lab => lab ++ [46])).flatten ++ tld)) := by
          simp
      _ = l :: splitDots ((ls.map (fun lab => lab ++ [46])).flatten ++ tld) :=
          splitDots_append_dot _ _ hfirst
      _ = (l :: ls) ++ [tld] := by rw [hrest]; rfl


theorem hostOk_iff (h : Bytes) :
    hostOk h = true ↔
      ∃ (labels : List Bytes) (tld : Bytes),
        labels ≠ [] ∧
        (∀ lab ∈ labels, (1 ≤ lab.length ∧ lab.length ≤ 63) ∧
          ∀ c ∈ lab, isLabelB c = true) ∧
        ((2 ≤ tld.length ∧ tld.length ≤ 63) ∧ ∀ c ∈ tld, isLowerB c = true) ∧
        h = (labels.map (fun lab => lab ++ [46])).flatten ++ tld := by
  constructor
  · intro hh
    have hne : splitDots h ≠ [] := splitDots_ne_nil h
    cases hlast : (splitDots h).getLast? with
    | none =>
      rw [List.getLast?_eq_none_iff] at hlast
      exact absurd hlast hne
    | some t =>
      rw [hostOk, hlast] at hh
      simp only [Bool.and_eq_true] at hh
      obtain ⟨⟨hlen, hall⟩, htld⟩ := hh
      refine ⟨(splitDots h).dropLast, t, ?_, ?_, ?_, ?_⟩
      · have h2 : 2 ≤ (splitDots h).length := by simpa using hlen
        have hd : (splitDots h).dropLast.length = (splitDots h).length - 1 :=
          List.length_dropLast _
        intro hcon
        rw [hcon] at hd
        simp at hd
        omega
      · intro lab hlab
        have := (List.all_eq_true.mp hall) lab hlab
        simpa [labelOk, List.all_eq_true, Bool.and_eq_true] using this
      · simpa [tldOk, List.all_eq_true, Bool.and_eq_true] using htld
      · have hget : (splitDots h).getLast hne = t := by
          rw [List.getLast?_eq_getLast _ hne, Option.some_inj] at hlast
          exact hlast
        have hdl : (splitDots h).dropLast ++ [t] = splitDots h := by
          rw [← hget]
          exact List.dropLast_append_getLast hne
        calc h = joinDots (splitDots h) := (joinDots_splitDots h).symm
          _ = joinDots ((splitDots h).dropLast ++ [t]) := by rw [hdl]
          _ = ((splitDots h).dropLast.map (fun lab => lab ++ [46])).flatten
                ++ t := joinDots_parts _ _
  · rintro ⟨labels, tld, hne, hlabs, htld, rfl⟩
    have hnod : ∀ lab ∈ labels, ∀ c ∈ lab, c ≠ 46 := by
      intro lab hlab c hc
      exact isLabelB_ne_dot ((hlabs lab hlab).2 c hc)
    have htnod : ∀ c ∈ tld, c ≠ 46 := fun c hc =>
      isLowerB_ne_dot (htld.2 c hc)
    have hsd : splitDots ((labels.map (fun lab => lab ++ [46])).flatten ++ tld)
        = labels ++ [tld] := splitDots_parts labels tld hnod htnod
    rw [hostOk, hsd]
    have h1 : (labels ++ [tld]).dropLast = labels := by
      simp
    have h2 : (labels ++ [tld]).getLast? = some tld := by
      simp
    rw [h1, h2]
    simp only [Bool.and_eq_true]
    refine ⟨⟨?_, ?_⟩, ?_⟩
    · have : 1 ≤ labels.length := by
        cases labels with
        | nil => exact absurd rfl hne
        | cons a as => simp
      simp only [List.length_append, List.length_singleton]
      exact decide_eq_true_eq.mpr (by omega)
    · rw [List.all_eq_true]
      intro lab hlab
      have := hlabs lab hlab
      simp [labelOk, List.all_eq_true, Bool.and_eq_true]
      exact ⟨⟨this.1.1, this.1.2⟩, this.2⟩
    · simp [tldOk, List.all_eq_true, Bool.and_eq_true]
      exact ⟨⟨htld.1.1, htld.1.2⟩, htld.2⟩

theorem originMatch_iff (s : Bytes) : originMatch s = true ↔ OriginSpec s := by
  unfold originMatch
  split
  · next rest =>
    simp only [Bool.and_eq_true]
    constructor
    · rintro ⟨hh, hp⟩
      obtain ⟨labels, tld, hne, hlabs, htld, hdec⟩ := (hostOk_iff _).mp hh
      obtain ⟨q, hq⟩ : ∃ q, (splitColon rest).2 = q := ⟨_, rfl⟩
      have hrec := splitColon_reconstruct rest
      rw [hq] at hrec hp
      refine ⟨labels, tld, q, hne, ?_, ?_, ?_, ?_⟩
      · intro lab hlab
        exact ⟨(hlabs lab hlab).1.1, (hlabs lab hlab).1.2,
          (hlabs lab hlab).2⟩
      · exact ⟨htld.1.1, htld.1.2, htld.2⟩
      · intro p hpmem
        rw [hpmem] at hp
        simp only [portOk, Bool.and_eq_true, Bool.not_eq_true'] at hp
        constructor
        · intro hcon
          rw [hcon] at hp
          simp at hp
        · exact fun c hc => (List.all_eq_true.mp hp.2) c hc
      · rw [hdec] at hrec
        rw [show (104 : Nat) :: 116 :: 116 :: 112 :: 115 :: 58 ::
          47 :: 47 :: rest =
          [104, 116, 116, 112, 115, 58, 47, 47] ++ rest from rfl, hrec]
        simp [List.append_assoc]
    · rintro ⟨labels, tld, port, hne, hlabs, htld, hport, heq⟩
      have hnc : ∀ c ∈ (labels.map (fun lab => lab ++ [46])).flatten ++ tld,
          c ≠ 58 := by
        intro c hc
        rcases List.mem_append.mp hc with hc1 | hc2
        · obtain ⟨piece, hpiece, hcin⟩ := List.mem_flatten.mp hc1
          obtain ⟨lab, hlab, rfl⟩ := List.mem_map.mp hpiece
          rcases List.mem_append.mp hcin with hcl | hcd
          · exact isLabelB_ne_colon ((hlabs lab hlab).2.2 c hcl)
          · simp at hcd
            subst hcd
            decide
        · exact isLowerB_ne_colon (htld.2.2 c hc2)
      have hhost : hostOk
          ((labels.map (fun lab => lab ++ [46])).flatten ++ tld) = true := by
        rw [hostOk_iff]
        exact ⟨labels, tld, hne,
          fun lab hlab => ⟨⟨(hlabs lab hlab).1, (hlabs lab hlab).2.1⟩,
            (hlabs lab hlab).2.2⟩,
          ⟨⟨htld.1, htld.2.1⟩, htld.2.2⟩, rfl⟩
      cases port with
      | none =>
        have hrest : rest =
            (labels.map (fun lab => lab ++ [46])).flatten ++ (tld ++ []) := by
          simpa [List.append_assoc] using heq
        have hsc : splitColon rest =
            ((labels.map (fun lab => lab ++ [46])).flatten ++ tld, none) := by
          rw [hrest]
          simpa [List.append_assoc] using
            splitColon_of_no_colon _ (by simpa [List.append_assoc] using hnc)
        rw [hsc]
        exact ⟨hhost, rfl⟩
      | some p =>
        have hp := hport p rfl
        have hrest : rest =
            (labels.map (fun lab => lab ++ [46])).flatten ++
              (tld ++ (58 :: p)) := by
          simpa [List.append_assoc] using heq
        have hsc : splitColon rest =
            ((labels.map (fun lab => lab ++ [46])).flatten ++ tld, some p) := by
          rw [hrest, show (labels.map (fun lab => lab ++ [46])).flatten ++
              (tld ++ (58 :: p)) =
              ((labels.map (fun lab => lab ++ [46])).flatten ++ tld) ++
                58 :: p by simp [List.append_assoc]]
          exact splitColon_append _ _ hnc
        rw [hsc]
        refine ⟨hhost, ?_⟩
        simp only [portOk, Bool.and_eq_true, Bool.not_eq_true']
        constructor
        · cases p with
          | nil => exact absurd rfl hp.1
          | cons a as => simp
        · rw [List.all_eq_true]
          exact fun c hc => hp.2 c hc
  · next hno =>
    simp only [Bool.false_eq_true, false_iff]
    rintro ⟨labels, tld, port, hne, hlabs, htld, hport, heq⟩
    exact hno _ heq

theorem originSpec_getLast {s : Bytes} (h : OriginSpec s) :
    ∃ c, s.getLast? = some c ∧ (isLowerB c || isDigitB c) = true := by
  obtain ⟨labels, tld, port, hne, hlabs, htld, hport, rfl⟩ := h
  cases port with
  | none =>
    have htne : tld ≠ [] := by
      intro hc
      rw [hc] at htld
      simp at htld
    refine ⟨tld.getLast htne, ?_, ?_⟩
    · rw [show [104, 116, 116, 112, 115, 58, 47, 47] ++
        (labels.map (fun lab => lab ++ [46])).flatten ++ tld ++
        (match (none : Option Bytes) with
         | none => [] | some p => 58 :: p) =
        ([104, 116, 116, 112, 115, 58, 47, 47] ++
         (labels.map (fun lab => lab ++ [46])).flatten) ++ tld by
          simp [List.append_assoc]]
      rw [List.getLast?_append_of_ne_nil _ htne]
      exact List.getLast?_eq_getLast_of_ne_nil htne
    · have := htld.2.2 (tld.getLast htne) (List.getLast_mem htne)
      simp [this]
  | some p =>
    have hp := hport p rfl
    have hpne : p ≠ [] := hp.1
    refine ⟨p.getLast hpne, ?_, ?_⟩
    · rw [show [104, 116, 116, 112, 115, 58, 47, 47] ++
        (labels.map (fun lab => lab ++ [46])).flatten ++ tld ++
        (match (some p : Option Bytes) with
         | none => [] | some q => 58 :: q) =
        (([104, 116, 116, 112, 115, 58, 47, 47] ++
          (labels.map (fun lab => lab ++ [46])).flatten ++ tld) ++ [58]) ++ p
        by simp [List.append_assoc]]
      rw [List.getLast?_append_of_ne_nil _ hpne]
      exact List.getLast?_eq_getLast_of_ne_nil hpne
    · have := hp.2 (p.getLast hpne) (List.getLast_mem hpne)
      simp [this]

/-- Appending a trailing slash to any accepted origin makes it rejected: an
accepted string ends in a lower-case letter (TLD) or digit (port), never
`/`. -/
theorem originMatch_trailing_slash {s : Bytes} (_h : originMatch s = true) :
    originMatch (s ++ [47]) = false := by
  cases hx : originMatch (s ++ [47]) with
  | false => rfl
  | true =>
    obtain ⟨c, hlast, hcls⟩ := originSpec_getLast ((originMatch_iff _).mp hx)
    rw [List.getLast?_append_of_ne_nil s (by simp : ([47] : Bytes) ≠ [])]
      at hlast
    simp only [List.getLast?_singleton, Option.some_inj] at hlast
    subst hlast
    exact absurd hcls (by decide)

/-! ## JS number semantics of the clock-skew comparison (index.js line 259)

`Math.abs(issuedTime.value - new Date().value)`: `Date` objects have no
property named `value`, so both reads yield `undefined`; `undefined -
undefined` is `NaN`, `Math.abs(NaN)` is `NaN`, and `NaN > x` is `false` for
every number `x`.  `none` stands for the `undefined`/`NaN` chain. -/

/-- Reading the nonexistent `value` property of a `Date` object. -/
def jsDateValueProp : Option Int := none

/-- JS subtraction: any `undefined`/`NaN` operand poisons the result. -/
def jsNumSub : Option Int → Option Int → Option Int
  | some a, some b => some (a - b)
  | _, _ => none

/-- `Math.abs`, propagating `NaN`. -/
def jsNumAbs : Option Int → Option Int
  | some a => some |a|
  | none => none

/-- JS `>`: every comparison with `NaN` is `false`. -/
def jsNumGt : Option Int → Int → Bool
  | some a, b => b < a
  | none, _ => false

/-- The condition of the skew check in `CountersignedToken.fromSerialized`. -/
def jsSkewExceeded (skewMs : Int) : Bool :=
  jsNumGt (jsNumAbs (jsNumSub jsDateValueProp jsDateValueProp)) skewMs

theorem jsSkewExceeded_eq_false (skewMs : Int) : jsSkewExceeded skewMs = false := rfl

/-! ## JS token construction and validation (index.js lines 63-127, 205-279) -/

/-- Error conditions of the JS SDK, one per `throw` site relevant here
(`rangeErr` stands for the `RangeError` thrown by out-of-range `Buffer`
reads and writes, `typeErr` for the `TypeError` of calling a `Buffer` method
on a value that has none). -/
inductive JsErr where
  | malformedIssuer
  | malformedAudience
  | malformedId
  | rangeErr
  | typeErr
  | incorrectVersion
  | incorrectType
  | incorrectIssuer
  | incorrectAudience
  | incorrectBinding
  | clockSkew
  | invalidSignature
deriving DecidableEq, Repr

/-- A constructed JS `RecoveryToken`/`CountersignedToken` object.  `encoded`
is the byte string whose base64 rendering the source stores (base64 is a
bijection on byte strings, so it is kept at the byte level). -/
structure JsToken where
  version : Nat
  type : Nat
  id : Bytes
  options : Nat
  issuer : Bytes
  audience : Bytes
  issuedTime : Bytes
  data : Bytes
  binding : Bytes
  raw : Bytes
  signature : Bytes
  encoded : Bytes
deriving DecidableEq, Repr

/-- The `RecoveryToken` constructor (index.js lines 63-127) on the
`privateKey === null` path, where the supplied signature is attached
unchecked.  Checks and writes occur in source order; `writeUInt8` and
`writeUInt16BE` throw `RangeError` on oversized values.  An empty
`issuedTime` string is falsy, so `issuedTime || new Date().toISOString()`
replaces it by the current time `nowIso`. -/
def jsRecoveryTokenMk (id : Bytes) (options : Nat)
    (issuer audience issuedTime data binding signature nowIso : Bytes) :
    Except JsErr JsToken :=
  if originMatch issuer = false then .error .malformedIssuer
  else if originMatch audience = false then .error .malformedAudience
  else if id.length ≠ 16 then .error .malformedId
  else
    let issuedTime1 := if issuedTime.isEmpty then nowIso else issuedTime
    if 255 < options then .error .rangeErr
    else if 65535 < issuer.length then .error .rangeErr
    else if 65535 < audience.length then .error .rangeErr
    else if 65535 < issuedTime1.length then .error .rangeErr
    else if 65535 < data.length then .error .rangeErr
    else if 65535 < binding.length then .error .rangeErr
    else
      let raw := rawLayout 0 0 id options issuer audience issuedTime1
        data binding
      .ok { version := 0, type := 0, id := id, options := options,
            issuer := issuer, audience := audience,
            issuedTime := issuedTime1, data := data, binding := binding,
            raw := raw, signature := signature,
            encoded := raw ++ signature }

/-- The `CountersignedToken` constructor (index.js lines 233-236): runs the
superclass constructor, then overwrites `this.type` (the already-built `raw`
and `encoded` keep the recovery-token type byte). -/
def jsCountersignedTokenMk (id : Bytes) (options : Nat)
    (issuer audience issuedTime data binding signature nowIso : Bytes) :
    Except JsErr JsToken :=
  (jsRecoveryTokenMk id options issuer audience issuedTime data binding
    signature nowIso).map fun t => { t with type := 1 }

/-- `RecoveryToken.isSignatureValid` (index.js lines 205-226) for a `Buffer`
input.  `verify k raw sig` abstracts one ECDSA-SHA256 verification of `sig`
over `raw` under key `k` (`crypto.verify` returns a boolean, treating
malformed signatures as non-matches).  With an explicit `signatureOffset`
the verified range is `slice(0, offset)`.  With the offset defaulted the
source reads `deserialize(serialized).signatureOffset`; the parse result
stores the offset under the name `signatureIndex`, so the read yields
`undefined`, and `slice(0, undefined)` and `slice(undefined)` are both the
whole buffer. -/
def jsIsSignatureValid {κ : Type} (verify : κ → Bytes → Bytes → Bool)
    (l : Bytes) (keys : List κ) (signatureOffset : Option Nat) :
    Except JsErr Bool :=
  match signatureOffset with
  | some off =>
      .ok (keys.any fun k => verify k (l.take off) (l.drop off))
  | none =>
      match jsDeserialize l with
      | none => .error .rangeErr
      | some _ => .ok (keys.any fun k => verify k l l)

/-- `CountersignedToken.fromSerialized` (index.js lines 250-279), the
countersigned-token validator: deserialize, then version, type, issuer,
audience, binding, the (inert) clock-skew comparison, construction of the
result token (which re-checks the parsed origins and id), and finally the
signature over `slice(0, fields.signatureIndex)`. -/
def jsCountersignedFromSerialized {κ : Type} (verify : κ → Bytes → Bytes → Bool)
    (l : Bytes) (issuer audience : Bytes) (allowedClockSkew : Int)
    (binding : Bytes) (keys : List κ) (nowIso : Bytes) :
    Except JsErr JsToken :=
  match jsDeserialize l with
  | none => .error .rangeErr
  | some fields =>
    if fields.version ≠ 0 then .error .incorrectVersion
    else if fields.type ≠ 1 then .error .incorrectType
    else if fields.issuer ≠ issuer then .error .incorrectIssuer
    else if fields.audience ≠ audience then .error .incorrectAudience
    else if fields.binding ≠ binding then .error .incorrectBinding
    else if jsSkewExceeded (allowedClockSkew * 1000) then .error .clockSkew
    else
      match jsCountersignedTokenMk fields.id fields.options fields.issuer
        fields.audience fields.issuedTime fields.data fields.binding
        fields.signature nowIso with
      | .error e => .error e
      | .ok token =>
        match jsIsSignatureValid verify l keys (some fields.signatureIndex) with
        | .error e => .error e
        | .ok true => .ok token
        | .ok false => .error .invalidSignature

/-! ## Java token parsing and validation (RecoveryToken.java, CountersignedRecoveryToken.java) -/

/-- `Arrays.copyOfRange(l, from, from + len)`: throws
`ArrayIndexOutOfBoundsException` when `from` exceeds the array length, and
otherwise ZERO-PADS any part of the requested range beyond the end. -/
def javaCopyOfRange (l : Bytes) (start len : Nat) : Option Bytes :=
  if start ≤ l.length then
    some ((l.drop start).take len ++ List.replicate (len - (l.length - start)) 0)
  else none

deriving instance DecidableEq for Except

/-- Error conditions of the Java SDK constructors (`outOfBounds` is the
unchecked `ArrayIndexOutOfBoundsException` escaping the parsing
constructor). -/
inductive JavaErr where
  | outOfBounds
  | illegalVersion
  | invalidOrigin
  | illegalType
  | issuerMismatch
  | audienceMismatch
  | bindingMismatch
  | sigInvalid
  | unparsableTime
  | tokenExpired
deriving DecidableEq, Repr

/-- The fields read by the Java deserializing constructor
`RecoveryToken(String encoded)` (RecoveryToken.java lines 194-235). -/
structure JavaFields where
  version : Nat
  type : Nat
  id : Bytes
  options : Nat
  issuer : Bytes
  audience : Bytes
  issuedTime : Bytes
  data : Bytes
  binding : Bytes
  signature : Bytes
  decoded : Bytes
deriving DecidableEq, Repr

/-- The field-reading part of `RecoveryToken(String encoded)`: single-byte
reads throw when out of bounds; `Arrays.copyOfRange` zero-pads overruns but
throws once the running offset passes the end of the buffer (which every
overrun of the four inner length fields eventually causes at the next read,
and a binding overrun causes at the final signature `copyOfRange`). -/
def javaParse (decoded : Bytes) : Option JavaFields :=
  (readU8 decoded 0).bind fun version =>
  (readU8 decoded 1).bind fun type =>
  (javaCopyOfRange decoded 2 16).bind fun id =>
  (readU8 decoded 18).bind fun options =>
  (readU16 decoded 19).bind fun issuerLength =>
  (javaCopyOfRange decoded 21 issuerLength).bind fun issuerBytes =>
  (readU16 decoded (21 + issuerLength)).bind fun audienceLength =>
  let o1 := 21 + issuerLength + 2
  (javaCopyOfRange decoded o1 audienceLength).bind fun audienceBytes =>
  (readU16 decoded (o1 + audienceLength)).bind fun issuedTimeLength =>
  let o2 := o1 + audienceLength + 2
  (javaCopyOfRange decoded o2 issuedTimeLength).bind fun issuedTimeBytes =>
  (readU16 decoded (o2 + issuedTimeLength)).bind fun dataLength =>
  let o3 := o2 + issuedTimeLength + 2
  (javaCopyOfRange decoded o3 dataLength).bind fun data =>
  (readU16 decoded (o3 + dataLength)).bind fun bindingLength =>
  let o4 := o3 + dataLength + 2
  (javaCopyOfRange decoded o4 bindingLength).bind fun binding =>
  let o5 := o4 + bindingLength
  (javaCopyOfRange decoded o5 (decoded.length - o5)).bind fun signature =>
  some { version := version, type := type, id := id, options := options,
         issuer := asciiDecodeJava issuerBytes,
         audience := asciiDecodeJava audienceBytes,
         issuedTime := asciiDecodeJava issuedTimeBytes,
         data := data, binding := binding, signature := signature,
         decoded := decoded }

/-- The public Java constructor `RecoveryToken(String encoded)`: parse, then
`commonSanityCheck` (version, then origin grammar of issuer and audience)
and `typedSanityCheck` (which accepts only `TYPE_COUNTERSIGNED_TOKEN`,
0x01). -/
def javaTokenFromEncoded (decoded : Bytes) : Except JavaErr JavaFields :=
  match javaParse decoded with
  | none => .error .outOfBounds
  | some f =>
    if f.version ≠ 0 then .error .illegalVersion
    else if originMatch f.issuer = false then .error .invalidOrigin
    else if originMatch f.audience = false then .error .invalidOrigin
    else if f.type ≠ 1 then .error .illegalType
    else .ok f

/-- `RecoveryToken.isSignatureValid` (RecoveryToken.java lines 171-185):
iterate the key array; each verification covers
`decoded[0 .. decoded.length - signature.length)`; return true on the first
success, false when none verifies. -/
def javaIsSignatureValid {κ : Type} (verify : κ → Bytes → Bytes → Bool)
    (f : JavaFields) (keys : List κ) : Bool :=
  keys.any fun k =>
    verify k (f.decoded.take (f.decoded.length - f.signature.length))
      f.signature

/-- The `CountersignedRecoveryToken` constructor
(CountersignedRecoveryToken.java lines 66-100): the superclass parsing
constructor and sanity checks, then issuer equality, audience equality,
binding equality (skipped when the expected binding is `null`), signature
verification, and last the clock-skew window on the parsed `issuedTime`
(`parseTime` abstracts `DelegatedRecoveryUtils.fromISO8601`, in
milliseconds; `none` is its `ParseException`). -/
def javaCountersignedFromEncoded {κ : Type} (verify : κ → Bytes → Bytes → Bool)
    (parseTime : Bytes → Option Int) (now : Int) (decoded : Bytes)
    (issuer audience : Bytes) (keys : List κ) (allowedClockSkewSec : Int)
    (binding : Option Bytes) : Except JavaErr JavaFields :=
  match javaTokenFromEncoded decoded with
  | .error e => .error e
  | .ok f =>
    if f.issuer ≠ issuer then .error .issuerMismatch
    else if f.audience ≠ audience then .error .audienceMismatch
    else if (match binding with
             | some b => decide (f.binding ≠ b)
             | none => false) = true then .error .bindingMismatch
    else if javaIsSignatureValid verify f keys = false then .error .sigInvalid
    else
      match parseTime f.issuedTime with
      | none => .error .unparsableTime
      | some t =>
        if allowedClockSkewSec * 1000 < |t - now| then .error .tokenExpired
        else .ok f

/-! ## Token-status callback endpoints (examples: node app.js `app.post(STATUS_PATH)`
and the Spark `post(TOKEN_STATUS_PATH)` route in Main.java) -/

/-- Status of a stored token record. -/
inductive RecordStatus where
  | provisional
  | confirmed
  | invalid
deriving DecidableEq, Repr

/-- A token record as kept by the example account providers. -/
structure TokenRecord where
  id : Bytes
  username : Bytes
  hash : Bytes
  status : RecordStatus
deriving DecidableEq, Repr

/-- `"save-success"` in ASCII codes. -/
def strSaveSuccess : Bytes := [115, 97, 118, 101, 45, 115, 117, 99, 99, 101, 115, 115]

/-- `"save-failure"` in ASCII codes. -/
def strSaveFailure : Bytes := [115, 97, 118, 101, 45, 102, 97, 105, 108, 117, 114, 101]

/-- `"token-repudiated"` in ASCII codes. -/
def strTokenRepudiated : Bytes :=
  [116, 111, 107, 101, 110, 45, 114, 101, 112, 117, 100, 105, 97, 116, 101, 100]

/-- `"deleted"` in ASCII codes. -/
def strDeleted : Bytes := [100, 101, 108, 101, 116, 101, 100]

/-- Mutate the status of the first record with the given id (the JS handler
mutates the record object returned by `Array.find`; the Java handler the one
from `findFirst`). -/
def setStatusFirst (records : List TokenRecord) (id : Bytes)
    (st : RecordStatus) : List TokenRecord :=
  match records with
  | [] => []
  | r :: rs =>
    if r.id = id then { r with status := st } :: rs
    else r :: setStatusFirst rs id st

/-- `tokenRecords.splice(tokenRecords.findIndex(record => record.id === id), 1)`:
remove the first record with the given id. -/
def removeFirst (records : List TokenRecord) (id : Bytes) : List TokenRecord :=
  match records with
  | [] => []
  | r :: rs => if r.id = id then rs else r :: removeFirst rs id

/-- `RecoveryTokenRecordDao.deleteRecordById`: `records.removeIf(...)`
removes every record with the given id. -/
def removeAllById (records : List TokenRecord) (id : Bytes) : List TokenRecord :=
  records.filter fun r => !(r.id == id)

/-- The node example's token-status route (app.js lines 470-487): find the
record by id; when present, `save-success` confirms it, `save-failure`
removes it, `token-repudiated` invalidates it, and any other status —
including `deleted` — falls through the `switch` unchanged.  The reply is
always status 200 with an empty body. -/
def jsStatusRoute (records : List TokenRecord) (id status : Bytes) :
    List TokenRecord × Nat × Bytes :=
  let store :=
    if (records.find? fun r => r.id == id).isSome then
      if status = strSaveSuccess then setStatusFirst records id .confirmed
      else if status = strSaveFailure then removeFirst records id
      else if status = strTokenRepudiated then setStatusFirst records id .invalid
      else records
    else records
  (store, 200, [])

/-- The Spark example's token-status route (Main.java lines 145-162): when
both the record and the status parameter are present, `save-success`
confirms, `save-failure` and `deleted` delete, `token-repudiated`
invalidates; always replies 200 with an empty body. -/
def javaStatusRoute (records : List TokenRecord) (id : Bytes)
    (status : Option Bytes) : List TokenRecord × Nat × Bytes :=
  let store :=
    match status with
    | none => records
    | some st =>
      if (records.find? fun r => r.id == id).isSome then
        if st = strSaveSuccess then setStatusFirst records id .confirmed
        else if st = strSaveFailure ∨ st = strDeleted then
          removeAllById records id
        else if st = strTokenRepudiated then setStatusFirst records id .invalid
        else records
      else records
  (store, 200, [])

/-! ## Parsing a well-formed serialized token -/

theorem readU8_exact (pre tail : Bytes) (b i : Nat) (hi : pre.length = i) :
    readU8 (pre ++ (b :: tail)) i = some b := by
  subst hi
  unfold readU8
  rw [List.getElem?_append_right (le_refl _)]
  simp

theorem readU16_exact (pre tail : Bytes) (n i : Nat) (hn : n ≤ 65535)
    (hi : pre.length = i) :
    readU16 (pre ++ (u16be n ++ tail)) i = some n := by
  subst hi
  unfold readU16 u16be
  rw [show pre ++ ([n / 256, n % 256] ++ tail) =
    pre ++ (n / 256 :: n % 256 :: tail) from rfl]
  rw [List.getElem?_append_right (le_refl _)]
  rw [List.getElem?_append_right (by omega : pre.length ≤ pre.length + 1)]
  simp only [Nat.sub_self, Nat.add_sub_cancel_left, List.getElem?_cons_zero,
    List.getElem?_cons_succ]
  congr 1
  omega

theorem bslice_exact (pre x tail : Bytes) (i m : Nat) (hi : pre.length = i)
    (hm : x.length = m) :
    bslice (pre ++ (x ++ tail)) i m = x := by
  subst hi
  subst hm
  unfold bslice
  rw [List.drop_left, List.take_left]

theorem jsDeserialize_rawLayout (version type : Nat) (id : Bytes)
    (options : Nat) (issuer audience issuedTime data binding sig : Bytes)
    (hid : id.length = 16)
    (hiss : issuer.length ≤ 65535) (haud : audience.length ≤ 65535)
    (htm : issuedTime.length ≤ 65535) (hdat : data.length ≤ 65535)
    (hbin : binding.length ≤ 65535) :
    jsDeserialize
      (rawLayout version type id options issuer audience issuedTime data
        binding ++ sig) =
      some { version := version, type := type, id := id, options := options,
             issuer := asciiDecodeJs (asciiEncode issuer),
             audience := asciiDecodeJs (asciiEncode audience),
             issuedTime := asciiDecodeJs (asciiEncode issuedTime),
             data := data, binding := binding,
             raw := rawLayout version type id options issuer audience
               issuedTime data binding,
             signatureIndex := (rawLayout version type id options issuer
               audience issuedTime data binding).length,
             signature := sig } := by
  have e0 : rawLayout version type id options issuer audience issuedTime data
      binding ++ sig
      = version :: type :: (id ++ (options ::
        (u16be issuer.length ++ (asciiEncode issuer ++
        (u16be audience.length ++ (asciiEncode audience ++
        (u16be issuedTime.length ++ (asciiEncode issuedTime ++
        (u16be data.length ++ (data ++
        (u16be binding.length ++ (binding ++ sig)))))))))))) := by
    simp [rawLayout, List.append_assoc]
  rw [e0]
  set tB : Bytes := binding ++ sig with htB
  set tLB : Bytes := u16be binding.length ++ tB with htLB
  set tD : Bytes := data ++ tLB with htD
  set tLD : Bytes := u16be data.length ++ tD with htLD
  set tT : Bytes := asciiEncode issuedTime ++ tLD with htT
  set tLT : Bytes := u16be issuedTime.length ++ tT with htLT
  set tA : Bytes := asciiEncode audience ++ tLT with htA
  set tLA : Bytes := u16be audience.length ++ tA with htLA
  set tI : Bytes := asciiEncode issuer ++ tLA with htI
  set tLI : Bytes := u16be issuer.length ++ tI with htLI
  set N : Bytes := version :: type :: (id ++ (options :: tLI)) with hN
  have lenEI : (asciiEncode issuer).length = issuer.length := List.length_map _ _
  have lenEA : (asciiEncode audience).length = audience.length := List.length_map _ _
  have lenET : (asciiEncode issuedTime).length = issuedTime.length := List.length_map _ _
  have r0 : readU8 N 0 = some version := by rw [hN]; simp [readU8]
  have r1 : readU8 N 1 = some type := by rw [hN]; simp [readU8]
  have r2 : bslice N 2 16 = id := by
    have e : N = ([version, type] : Bytes) ++ (id ++ (options :: tLI)) := by
      simp [hN]
    rw [e]
    exact bslice_exact _ _ _ _ _ rfl hid
  have r18 : readU8 N 18 = some options := by
    have e : N = (version :: type :: id) ++ (options :: tLI) := by
      simp [hN, List.append_assoc]
    rw [e]
    exact readU8_exact _ _ _ _ (by simp [hid])
  have r19 : readU16 N 19 = some issuer.length := by
    have e : N = (version :: type :: (id ++ [options])) ++
        (u16be issuer.length ++ tI) := by
      simp [hN, htLI, List.append_assoc]
    rw [e]
    exact readU16_exact _ _ _ _ hiss (by simp [hid])
  have r21 : bslice N 21 issuer.length = asciiEncode issuer := by
    have e : N = (version :: type :: (id ++ (options :: u16be issuer.length)))
        ++ (asciiEncode issuer ++ tLA) := by
      simp [hN, htLI, htI, List.append_assoc]
    rw [e]
    exact bslice_exact _ _ _ _ _ (by simp [hid, u16be]) lenEI
  have rA : readU16 N (21 + issuer.length) = some audience.length := by
    have e : N = (version :: type :: (id ++ (options ::
        (u16be issuer.length ++ asciiEncode issuer)))) ++
        (u16be audience.length ++ tA) := by
      simp [hN, htLI, htI, htLA, List.append_assoc]
    rw [e]
    exact readU16_exact _ _ _ _ haud (by simp [hid, u16be, lenEI]; omega)
  have rAs : bslice N (21 + issuer.length + 2) audience.length
      = asciiEncode audience := by
    have e : N = (version :: type :: (id ++ (options ::
        (u16be issuer.length ++ (asciiEncode issuer ++
         u16be audience.length))))) ++ (asciiEncode audience ++ tLT) := by
      simp [hN, htLI, htI, htLA, htA, List.append_assoc]
    rw [e]
    exact bslice_exact _ _ _ _ _ (by simp [hid, u16be, lenEI]; omega) lenEA
  have rT : readU16 N (21 + issuer.length + 2 + audience.length)
      = some issuedTime.length := by
    have e : N = (version :: type :: (id ++ (options ::
        (u16be issuer.length ++ (asciiEncode issuer ++
        (u16be audience.length ++ asciiEncode audience)))))) ++
        (u16be issuedTime.length ++ tT) := by
      simp [hN, htLI, htI, htLA, htA, htLT, List.append_assoc]
    rw [e]
    exact readU16_exact _ _ _ _ htm (by simp [hid, u16be, lenEI, lenEA]; omega)
  have rTs : bslice N (21 + issuer.length + 2 + audience.length + 2)
      issuedTime.length = asciiEncode issuedTime := by
    have e : N = (version :: type :: (id ++ (options ::
        (u16be issuer.length ++ (asciiEncode issuer ++
        (u16be audience.length ++ (asciiEncode audience ++
         u16be issuedTime.length))))))) ++ (asciiEncode issuedTime ++ tLD) := by
      simp [hN, htLI, htI, htLA, htA, htLT, htT, List.append_assoc]
    rw [e]
    exact bslice_exact _ _ _ _ _
      (by simp [hid, u16be, lenEI, lenEA]; omega) lenET
  have rD : readU16 N
      (21 + issuer.length + 2 + audience.length + 2 + issuedTime.length)
      = some data.length := by
    have e : N = (version :: type :: (id ++ (options ::
        (u16be issuer.length ++ (asciiEncode issuer ++
        (u16be audience.length ++ (asciiEncode audience ++
        (u16be issuedTime.length ++ asciiEncode issuedTime)))))))) ++
        (u16be data.length ++ tD) := by
      simp [hN, htLI, htI, htLA, htA, htLT, htT, htLD, List.append_assoc]
    rw [e]
    exact readU16_exact _ _ _ _ hdat
      (by simp [hid, u16be, lenEI, lenEA, lenET]; omega)
  have rDs : bslice N
      (21 + issuer.length + 2 + audience.length + 2 + issuedTime.length + 2)
      data.length = data := by
    have e : N = (version :: type :: (id ++ (options ::
        (u16be issuer.length ++ (asciiEncode issuer ++
        (u16be audience.length ++ (asciiEncode audience ++
        (u16be issuedTime.length ++ (asciiEncode issuedTime ++
         u16be data.length))))))))) ++ (data ++ tLB) := by
      simp [hN, htLI, htI, htLA, htA, htLT, htT, htLD, htD, List.append_assoc]
    rw [e]
    exact bslice_exact _ _ _ _ _
      (by simp [hid, u16be, lenEI, lenEA, lenET]; omega) rfl
  have rB : readU16 N
      (21 + issuer.length + 2 + audience.length + 2 + issuedTime.length + 2 +
        data.length) = some binding.length := by
    have e : N = (version :: type :: (id ++ (options ::
        (u16be issuer.length ++ (asciiEncode issuer ++
        (u16be audience.length ++ (asciiEncode audience ++
        (u16be issuedTime.length ++ (asciiEncode issuedTime ++
        (u16be data.length ++ data)))))))))) ++
        (u16be binding.length ++ tB) := by
      simp [hN, htLI, htI, htLA, htA, htLT, htT, htLD, htD, htLB,
        List.append_assoc]
    rw [e]
    exact readU16_exact _ _ _ _ hbin
      (by simp [hid, u16be, lenEI, lenEA, lenET]; omega)
  have rBs : bslice N
      (21 + issuer.length + 2 + audience.length + 2 + issuedTime.length + 2 +
        data.length + 2) binding.length = binding := by
    have e : N = (version :: type :: (id ++ (options ::
        (u16be issuer.length ++ (asciiEncode issuer ++
        (u16be audience.length ++ (asciiEncode audience ++
        (u16be issuedTime.length ++ (asciiEncode issuedTime ++
        (u16be data.length ++ (data ++ u16be binding.length))))))))))) ++
        (binding ++ sig) := by
      simp [hN, htLI, htI, htLA, htA, htLT, htT, htLD, htD, htLB, htB,
        List.append_assoc]
    rw [e]
    exact bslice_exact _ _ _ _ _
      (by simp [hid, u16be, lenEI, lenEA, lenET]; omega) rfl
  have hlenRAW : (rawLayout version type id options issuer audience issuedTime
      data binding).length =
      21 + issuer.length + 2 + audience.length + 2 + issuedTime.length + 2 +
        data.length + 2 + binding.length := by
    simp [rawLayout, u16be, lenEI, lenEA, lenET, hid]
    omega
  have eR : N = rawLayout version type id options issuer audience issuedTime
      data binding ++ sig := by
    rw [e0]
  have htake : N.take
      (21 + issuer.length + 2 + audience.length + 2 + issuedTime.length + 2 +
        data.length + 2 + binding.length) =
      rawLayout version type id options issuer audience issuedTime data
        binding := by
    rw [eR]
    exact List.take_left' hlenRAW
  have hdrop : N.drop
      (21 + issuer.length + 2 + audience.length + 2 + issuedTime.length + 2 +
        data.length + 2 + binding.length) = sig := by
    rw [eR]
    exact List.drop_left' hlenRAW
  simp only [jsDeserialize, r0, r1, r2, r18, r19, r21, rA, rAs, rT, rTs, rD,
    rDs, rB, rBs, Option.bind]
  rw [htake, hdrop, hlenRAW]

/-- Ascii code points: all entries below 128. -/
def AsciiStr (s : Bytes) : Prop := ∀ c ∈ s, c < 128

instance : DecidablePred AsciiStr := fun s =>
  decidable_of_iff (∀ c ∈ s, c < 128) Iff.rfl

theorem asciiDecodeJs_asciiEncode {s : Bytes} (h : AsciiStr s) :
    asciiDecodeJs (asciiEncode s) = s := by
  unfold asciiDecodeJs asciiEncode
  rw [List.map_map]
  conv_rhs => rw [← List.map_id s]
  apply List.map_congr_left
  intro c hc
  have hc1 := h c hc
  show (c % 256) % 128 = id c
  rw [Nat.mod_eq_of_lt (by omega : c < 256), Nat.mod_eq_of_lt hc1]
  rfl

theorem javaCopyOfRange_exact (pre x tail : Bytes) (i m : Nat)
    (hi : pre.length = i) (hm : x.length = m) :
    javaCopyOfRange (pre ++ (x ++ tail)) i m = some x := by
  subst hi
  subst hm
  unfold javaCopyOfRange
  rw [if_pos (by simp)]
  rw [List.drop_left, List.take_left]
  congr 1
  rw [show (pre ++ (x ++ tail)).length - pre.length
      = x.length + tail.length from by simp]
  rw [show x.length - (x.length + tail.length) = 0 from by omega]
  simp

theorem javaCopyOfRange_tail (pre tail : Bytes) (i : Nat)
    (hi : pre.length = i) :
    javaCopyOfRange (pre ++ tail) i ((pre ++ tail).length - i) = some tail := by
  subst hi
  unfold javaCopyOfRange
  rw [if_pos (by simp)]
  rw [List.drop_left]
  rw [show (pre ++ tail).length - pre.length = tail.length from by simp]
  simp

theorem javaParse_rawLayout (version type : Nat) (id : Bytes)
    (options : Nat) (issuer audience issuedTime data binding sig : Bytes)
    (hid : id.length = 16)
    (hiss : issuer.length ≤ 65535) (haud : audience.length ≤ 65535)
    (htm : issuedTime.length ≤ 65535) (hdat : data.length ≤ 65535)
    (hbin : binding.length ≤ 65535) :
    javaParse
      (rawLayout version type id options issuer audience issuedTime data
        binding ++ sig) =
      some { version := version, type := type, id := id, options := options,
             issuer := asciiDecodeJava (asciiEncode issuer),
             audience := asciiDecodeJava (asciiEncode audience),
             issuedTime := asciiDecodeJava (asciiEncode issuedTime),
             data := data, binding := binding, signature := sig,
             decoded := rawLayout version type id options issuer audience
               issuedTime data binding ++ sig } := by
  have e0 : rawLayout version type id options issuer audience issuedTime data
      binding ++ sig
      = version :: type :: (id ++ (options ::
        (u16be issuer.length ++ (asciiEncode issuer ++
        (u16be audience.length ++ (asciiEncode audience ++
        (u16be issuedTime.length ++ (asciiEncode issuedTime ++
        (u16be data.length ++ (data ++
        (u16be binding.length ++ (binding ++ sig)))))))))))) := by
    simp [rawLayout, List.append_assoc]
  rw [e0]
  set tB : Bytes := binding ++ sig with htB
  set tLB : Bytes := u16be binding.length ++ tB with htLB
  set tD : Bytes := data ++ tLB with htD
  set tLD : Bytes := u16be data.length ++ tD with htLD
  set tT : Bytes := asciiEncode issuedTime ++ tLD with htT
  set tLT : Bytes := u16be issuedTime.length ++ tT with htLT
  set tA : Bytes := asciiEncode audience ++ tLT with htA
  set tLA : Bytes := u16be audience.length ++ tA with htLA
  set tI : Bytes := asciiEncode issuer ++ tLA with htI
  set tLI : Bytes := u16be issuer.length ++ tI with htLI
  set N : Bytes := version :: type :: (id ++ (options :: tLI)) with hN
  have lenEI : (asciiEncode issuer).length = issuer.length := List.length_map _ _
  have lenEA : (asciiEncode audience).length = audience.length := List.length_map _ _
  have lenET : (asciiEncode issuedTime).length = issuedTime.length := List.length_map _ _
  have r0 : readU8 N 0 = some version := by rw [hN]; simp [readU8]
  have r1 : readU8 N 1 = some type := by rw [hN]; simp [readU8]
  have r2 : javaCopyOfRange N 2 16 = some id := by
    have e : N = ([version, type] : Bytes) ++ (id ++ (options :: tLI)) := by
      simp [hN]
    rw [e]
    exact javaCopyOfRange_exact _ _ _ _ _ rfl hid
  have r18 : readU8 N 18 = some options := by
    have e : N = (version :: type :: id) ++ (options :: tLI) := by
      simp [hN, List.append_assoc]
    rw [e]
    exact readU8_exact _ _ _ _ (by simp [hid])
  have r19 : readU16 N 19 = some issuer.length := by
    have e : N = (version :: type :: (id ++ [options])) ++
        (u16be issuer.length ++ tI) := by
      simp [hN, htLI, List.append_assoc]
    rw [e]
    exact readU16_exact _ _ _ _ hiss (by simp [hid])
  have r21 : javaCopyOfRange N 21 issuer.length = some (asciiEncode issuer) := by
    have e : N = (version :: type :: (id ++ (options :: u16be issuer.length)))
        ++ (asciiEncode issuer ++ tLA) := by
      simp [hN, htLI, htI, List.append_assoc]
    rw [e]
    exact javaCopyOfRange_exact _ _ _ _ _ (by simp [hid, u16be]) lenEI
  have rA : readU16 N (21 + issuer.length) = some audience.length := by
    have e : N = (version :: type :: (id ++ (options ::
        (u16be issuer.length ++ asciiEncode issuer)))) ++
        (u16be audience.length ++ tA) := by
      simp [hN, htLI, htI, htLA, List.append_assoc]
    rw [e]
    exact readU16_exact _ _ _ _ haud (by simp [hid, u16be, lenEI]; omega)
  have rAs : javaCopyOfRange N (21 + issuer.length + 2) audience.length
      = some (asciiEncode audience) := by
    have e : N = (version :: type :: (id ++ (options ::
        (u16be issuer.length ++ (asciiEncode issuer ++
         u16be audience.length))))) ++ (asciiEncode audience ++ tLT) := by
      simp [hN, htLI, htI, htLA, htA, List.append_assoc]
    rw [e]
    exact javaCopyOfRange_exact _ _ _ _ _
      (by simp [hid, u16be, lenEI]; omega) lenEA
  have rT : readU16 N (21 + issuer.length + 2 + audience.length)
      = some issuedTime.length := by
    have e : N = (version :: type :: (id ++ (options ::
        (u16be issuer.length ++ (asciiEncode issuer ++
        (u16be audience.length ++ asciiEncode audience)))))) ++
        (u16be issuedTime.length ++ tT) := by
      simp [hN, htLI, htI, htLA, htA, htLT, List.append_assoc]
    rw [e]
    exact readU16_exact _ _ _ _ htm (by simp [hid, u16be, lenEI, lenEA]; omega)
  have rTs : javaCopyOfRange N (21 + issuer.length + 2 + audience.length + 2)
      issuedTime.length = some (asciiEncode issuedTime) := by
    have e : N = (version :: type :: (id ++ (options ::
        (u16be issuer.length ++ (asciiEncode issuer ++
        (u16be audience.length ++ (asciiEncode audience ++
         u16be issuedTime.length))))))) ++ (asciiEncode issuedTime ++ tLD) := by
      simp [hN, htLI, htI, htLA, htA, htLT, htT, List.append_assoc]
    rw [e]
    exact javaCopyOfRange_exact _ _ _ _ _
      (by simp [hid, u16be, lenEI, lenEA]; omega) lenET
  have rD : readU16 N
      (21 + issuer.length + 2 + audience.length + 2 + issuedTime.length)
      = some data.length := by
    have e : N = (version :: type :: (id ++ (options ::
        (u16be issuer.length ++ (asciiEncode issuer ++
        (u16be audience.length ++ (asciiEncode audience ++
        (u16be issuedTime.length ++ asciiEncode issuedTime)))))))) ++
        (u16be data.length ++ tD) := by
      simp [hN, htLI, htI, htLA, htA, htLT, htT, htLD, List.append_assoc]
    rw [e]
    exact readU16_exact _ _ _ _ hdat
      (by simp [hid, u16be, lenEI, lenEA, lenET]; omega)
  have rDs : javaCopyOfRange N
      (21 + issuer.length + 2 + audience.length + 2 + issuedTime.length + 2)
      data.length = some data := by
    have e : N = (version :: type :: (id ++ (options ::
        (u16be issuer.length ++ (asciiEncode issuer ++
        (u16be audience.length ++ (asciiEncode audience ++
        (u16be issuedTime.length ++ (asciiEncode issuedTime ++
         u16be data.length))))))))) ++ (data ++ tLB) := by
      simp [hN, htLI, htI, htLA, htA, htLT, htT, htLD, htD, List.append_assoc]
    rw [e]
    exact javaCopyOfRange_exact _ _ _ _ _
      (by simp [hid, u16be, lenEI, lenEA, lenET]; omega) rfl
  have rB : readU16 N
      (21 + issuer.length + 2 + audience.length + 2 + issuedTime.length + 2 +
        data.length) = some binding.length := by
    have e : N = (version :: type :: (id ++ (options ::
        (u16be issuer.length ++ (asciiEncode issuer ++
        (u16be audience.length ++ (asciiEncode audience ++
        (u16be issuedTime.length ++ (asciiEncode issuedTime ++
        (u16be data.length ++ data)))))))))) ++
        (u16be binding.length ++ tB) := by
      simp [hN, htLI, htI, htLA, htA, htLT, htT, htLD, htD, htLB,
        List.append_assoc]
    rw [e]
    exact readU16_exact _ _ _ _ hbin
      (by simp [hid, u16be, lenEI, lenEA, lenET]; omega)
  have rBs : javaCopyOfRange N
      (21 + issuer.length + 2 + audience.length + 2 + issuedTime.length + 2 +
        data.length + 2) binding.length = some binding := by
    have e : N = (version :: type :: (id ++ (options ::
        (u16be issuer.length ++ (asciiEncode issuer ++
        (u16be audience.length ++ (asciiEncode audience ++
        (u16be issuedTime.length ++ (asciiEncode issuedTime ++
        (u16be data.length ++ (data ++ u16be binding.length))))))))))) ++
        (binding ++ sig) := by
      simp [hN, htLI, htI, htLA, htA, htLT, htT, htLD, htD, htLB, htB,
        List.append_assoc]
    rw [e]
    exact javaCopyOfRange_exact _ _ _ _ _
      (by simp [hid, u16be, lenEI, lenEA, lenET]; omega) rfl
  have rS : javaCopyOfRange N
      (21 + issuer.length + 2 + audience.length + 2 + issuedTime.length + 2 +
        data.length + 2 + binding.length)
      (N.length -
        (21 + issuer.length + 2 + audience.length + 2 + issuedTime.length + 2 +
          data.length + 2 + binding.length)) = some sig := by
    have e : N = (version :: type :: (id ++ (options ::
        (u16be issuer.length ++ (asciiEncode issuer ++
        (u16be audience.length ++ (asciiEncode audience ++
        (u16be issuedTime.length ++ (asciiEncode issuedTime ++
        (u16be data.length ++ (data ++ (u16be binding.length ++
          binding)))))))))))) ++ sig := by
      simp [hN, htLI, htI, htLA, htA, htLT, htT, htLD, htD, htLB, htB,
        List.append_assoc]
    rw [e]
    exact javaCopyOfRange_tail _ _ _
      (by simp [hid, u16be, lenEI, lenEA, lenET]; omega)
  simp only [javaParse, r0, r1, r2, r18, r19, r21, rA, rAs, rT, rTs, rD,
    rDs, rB, rBs, rS, Option.bind]

theorem asciiDecodeJava_asciiEncode {s : Bytes} (h : AsciiStr s) :
    asciiDecodeJava (asciiEncode s) = s := by
  unfold asciiDecodeJava asciiEncode
  rw [List.map_map]
  conv_rhs => rw [← List.map_id s]
  apply List.map_congr_left
  intro c hc
  have hc1 := h c hc
  show (if c % 256 < 128 then c % 256 else 65533) = id c
  rw [Nat.mod_eq_of_lt (by omega : c < 256)]
  rw [if_pos hc1]
  rfl

theorem isLabelB_lt {c : Nat} (h : isLabelB c = true) : c < 128 := by
  simp only [isLabelB, isLowerB, isDigitB, Bool.or_eq_true, Bool.and_eq_true,
    decide_eq_true_eq, beq_iff_eq] at h
  omega

theorem isLowerB_lt {c : Nat} (h : isLowerB c = true) : c < 128 := by
  simp only [isLowerB, Bool.and_eq_true, decide_eq_true_eq] at h
  omega

theorem isDigitB_lt {c : Nat} (h : isDigitB c = true) : c < 128 := by
  simp only [isDigitB, Bool.and_eq_true, decide_eq_true_eq] at h
  omega

/-- Every accepted origin is pure ASCII. -/
theorem originMatch_ascii {s : Bytes} (h : originMatch s = true) :
    AsciiStr s := by
  obtain ⟨labels, tld, port, _, hlabs, htld, hport, rfl⟩ :=
    (originMatch_iff s).mp h
  intro c hc
  rcases List.mem_append.mp hc with hc1 | hc2
  · rcases List.mem_append.mp hc1 with hc3 | hc4
    · rcases List.mem_append.mp hc3 with hc5 | hc6
      · simp only [List.mem_cons, List.not_mem_nil, or_false] at hc5
        rcases hc5 with rfl | rfl | rfl | rfl | rfl | rfl | rfl | rfl <;> omega
      · obtain ⟨piece, hpiece, hcin⟩ := List.mem_flatten.mp hc6
        obtain ⟨lab, hlab, rfl⟩ := List.mem_map.mp hpiece
        rcases List.mem_append.mp hcin with hcl | hcd
        · exact isLabelB_lt ((hlabs lab hlab).2.2 c hcl)
        · simp only [List.mem_singleton] at hcd
          omega
    · exact isLowerB_lt (htld.2.2 c hc4)
  · cases port with
    | none => simp at hc2
    | some p =>
      rcases List.mem_cons.mp hc2 with rfl | hcp
      · omega
      · exact isDigitB_lt ((hport p rfl).2 c hcp)

/-- `"https://ap.example"` in ASCII codes, a sample issuer origin. -/
def wIssuer : Bytes :=
  [104, 116, 116, 112, 115, 58, 47, 47, 97, 112, 46, 101, 120, 97, 109, 112,
   108, 101]

/-- `"https://rp.example"` in ASCII codes, a sample audience origin. -/
def wAudience : Bytes :=
  [104, 116, 116, 112, 115, 58, 47, 47, 114, 112, 46, 101, 120, 97, 109, 112,
   108, 101]

/-- `"2017"` in ASCII codes, a sample issued-time string. -/
def wTime : Bytes := [50, 48, 49, 55]

theorem jsRecoveryTokenMk_ok (id : Bytes) (options : Nat)
    (issuer audience issuedTime data binding signature nowIso : Bytes)
    (hid : id.length = 16) (hopt : options ≤ 255)
    (hiss : originMatch issuer = true) (haud : originMatch audience = true)
    (htmne : issuedTime ≠ [])
    (hissl : issuer.length ≤ 65535) (haudl : audience.length ≤ 65535)
    (html : issuedTime.length ≤ 65535) (hdat : data.length ≤ 65535)
    (hbin : binding.length ≤ 65535) :
    jsRecoveryTokenMk id options issuer audience issuedTime data binding
      signature nowIso =
      .ok { version := 0, type := 0, id := id, options := options,
            issuer := issuer, audience := audience,
            issuedTime := issuedTime, data := data, binding := binding,
            raw := rawLayout 0 0 id options issuer audience issuedTime data
              binding,
            signature := signature,
            encoded := rawLayout 0 0 id options issuer audience issuedTime
              data binding ++ signature } := by
  have hie : issuedTime.isEmpty = false := by simpa using htmne
  simp [jsRecoveryTokenMk, hiss, haud, hie, hid,
    Nat.not_lt.mpr hopt, Nat.not_lt.mpr hissl, Nat.not_lt.mpr haudl,
    Nat.not_lt.mpr html, Nat.not_lt.mpr hdat, Nat.not_lt.mpr hbin]

/-- **C3.** For every valid field tuple — id of 16 bytes, options byte, valid
issuer and audience origins, nonempty ASCII issuedTime, the length-prefixed
fields each at most 65535 bytes — the `RecoveryToken` constructor succeeds
with the canonical serialization, and `RecoveryToken.deserialize` applied to
the constructor's output buffer returns the same token byte-for-byte:
version, type, id, options, issuer, audience, issuedTime, data, binding and
signature all equal the constructed token's fields, the parsed `raw` is
exactly the constructed byte layout with no remainder before the signature,
and the signature starts exactly where the length-prefixed fields end
(`signatureIndex` = length of the layout). -/
theorem c3_roundtrip (id : Bytes) (options : Nat)
    (issuer audience issuedTime data binding signature nowIso : Bytes)
    (hid : id.length = 16) (hopt : options ≤ 255)
    (hiss : originMatch issuer = true) (haud : originMatch audience = true)
    (htm : AsciiStr issuedTime) (htmne : issuedTime ≠ [])
    (hissl : issuer.length ≤ 65535) (haudl : audience.length ≤ 65535)
    (html : issuedTime.length ≤ 65535) (hdat : data.length ≤ 65535)
    (hbin : binding.length ≤ 65535) :
    jsRecoveryTokenMk id options issuer audience issuedTime data binding
      signature nowIso =
      .ok { version := 0, type := 0, id := id, options := options,
            issuer := issuer, audience := audience,
            issuedTime := issuedTime, data := data, binding := binding,
            raw := rawLayout 0 0 id options issuer audience issuedTime data
              binding,
            signature := signature,
            encoded := rawLayout 0 0 id options issuer audience issuedTime
              data binding ++ signature } ∧
    jsDeserialize (rawLayout 0 0 id options issuer audience issuedTime data
        binding ++ signature) =
      some { version := 0, type := 0, id := id, options := options,
             issuer := issuer, audience := audience,
             issuedTime := issuedTime, data := data, binding := binding,
             raw := rawLayout 0 0 id options issuer audience issuedTime data
               binding,
             signatureIndex := (rawLayout 0 0 id options issuer audience
               issuedTime data binding).length,
             signature := signature } := by
  constructor
  · exact jsRecoveryTokenMk_ok id options issuer audience issuedTime data
      binding signature nowIso hid hopt hiss haud htmne hissl haudl html
      hdat hbin
  · rw [jsDeserialize_rawLayout 0 0 id options issuer audience issuedTime
      data binding signature hid hissl haudl html hdat hbin]
    rw [asciiDecodeJs_asciiEncode (originMatch_ascii hiss)]
    rw [asciiDecodeJs_asciiEncode (originMatch_ascii haud)]
    rw [asciiDecodeJs_asciiEncode htm]

/-- **C3 witness.** A concrete valid tuple instantiating `c3_roundtrip`. -/
theorem c3_roundtrip_witness :
    jsRecoveryTokenMk (List.replicate 16 7) 1 wIssuer wAudience wTime
      [1, 2] [] [9, 9] [] =
      .ok { version := 0, type := 0, id := List.replicate 16 7, options := 1,
            issuer := wIssuer, audience := wAudience,
            issuedTime := wTime, data := [1, 2], binding := [],
            raw := rawLayout 0 0 (List.replicate 16 7) 1 wIssuer wAudience
              wTime [1, 2] [],
            signature := [9, 9],
            encoded := rawLayout 0 0 (List.replicate 16 7) 1 wIssuer
              wAudience wTime [1, 2] [] ++ [9, 9] } ∧
    jsDeserialize (rawLayout 0 0 (List.replicate 16 7) 1 wIssuer wAudience
        wTime [1, 2] [] ++ [9, 9]) =
      some { version := 0, type := 0, id := List.replicate 16 7, options := 1,
             issuer := wIssuer, audience := wAudience,
             issuedTime := wTime, data := [1, 2], binding := [],
             raw := rawLayout 0 0 (List.replicate 16 7) 1 wIssuer wAudience
               wTime [1, 2] [],
             signatureIndex := (rawLayout 0 0 (List.replicate 16 7) 1 wIssuer
               wAudience wTime [1, 2] []).length,
             signature := [9, 9] } :=
  c3_roundtrip (List.replicate 16 7) 1 wIssuer wAudience wTime [1, 2] []
    [9, 9] [] (by decide) (by decide) (by decide) (by decide)
    (by decide) (by decide) (by decide) (by decide) (by decide) (by decide)
    (by decide)

/-- **C9.** The Java deserializing constructor `RecoveryToken(String)`
accepts only type 0x01 (`TYPE_COUNTERSIGNED_TOKEN`): every token it returns
has type byte 1, and a well-formed plain recovery token of type 0x00 — the
type written by the signing constructor — is rejected with
`IllegalArgumentException` (`illegalType`) by `typedSanityCheck`, so it can
never be re-parsed through this public constructor. -/
theorem c9_java_type_only_countersigned :
    (∀ (decoded : Bytes) (f : JavaFields),
        javaTokenFromEncoded decoded = .ok f → f.type = 1) ∧
    (∀ (id : Bytes) (options : Nat)
        (issuer audience issuedTime data binding sig : Bytes),
        id.length = 16 → originMatch issuer = true →
        originMatch audience = true → AsciiStr issuedTime →
        issuer.length ≤ 65535 → audience.length ≤ 65535 →
        issuedTime.length ≤ 65535 → data.length ≤ 65535 →
        binding.length ≤ 65535 →
        javaTokenFromEncoded
          (rawLayout 0 0 id options issuer audience issuedTime data binding
            ++ sig) = .error .illegalType) := by
  constructor
  · intro decoded f hok
    unfold javaTokenFromEncoded at hok
    cases hp : javaParse decoded with
    | none => rw [hp] at hok; exact absurd hok (by simp)
    | some f0 =>
      rw [hp] at hok
      simp only at hok
      by_cases h1 : f0.version ≠ 0
      · rw [if_pos h1] at hok; exact absurd hok (by simp)
      · rw [if_neg h1] at hok
        by_cases h2 : originMatch f0.issuer = false
        · rw [if_pos h2] at hok; exact absurd hok (by simp)
        · rw [if_neg h2] at hok
          by_cases h3 : originMatch f0.audience = false
          · rw [if_pos h3] at hok; exact absurd hok (by simp)
          · rw [if_neg h3] at hok
            by_cases h4 : f0.type ≠ 1
            · rw [if_pos h4] at hok; exact absurd hok (by simp)
            · have he : f0 = f := by
                rw [if_neg h4] at hok
                simpa using hok
              subst he
              omega
  · intro id options issuer audience issuedTime data binding sig hid hiss
      haud htm hissl haudl html hdat hbin
    unfold javaTokenFromEncoded
    rw [javaParse_rawLayout 0 0 id options issuer audience issuedTime data
      binding sig hid hissl haudl html hdat hbin]
    rw [asciiDecodeJava_asciiEncode (originMatch_ascii hiss)]
    rw [asciiDecodeJava_asciiEncode (originMatch_ascii haud)]
    simp [hiss, haud]

/-- **C9 witness.** A concrete type-0 token rejected with `illegalType`, and
a concrete type-1 token accepted (whose parsed type is 1). -/
theorem c9_witness :
    javaTokenFromEncoded
      (rawLayout 0 0 (List.replicate 16 7) 1 wIssuer wAudience wTime [] []
        ++ [9]) = .error .illegalType ∧
    ({ version := 0, type := 1, id := List.replicate 16 7, options := 1,
       issuer := wIssuer, audience := wAudience, issuedTime := wTime,
       data := [], binding := [], signature := [9],
       decoded := rawLayout 0 1 (List.replicate 16 7) 1 wIssuer wAudience
         wTime [] [] ++ [9] } : JavaFields).type = 1 :=
  ⟨c9_java_type_only_countersigned.2 (List.replicate 16 7) 1 wIssuer
      wAudience wTime [] [] [9] (by decide) (by decide) (by decide)
      (by decide) (by decide) (by decide) (by decide) (by decide) (by decide),
   c9_java_type_only_countersigned.1
      (rawLayout 0 1 (List.replicate 16 7) 1 wIssuer wAudience wTime [] []
        ++ [9])
      { version := 0, type := 1, id := List.replicate 16 7, options := 1,
        issuer := wIssuer, audience := wAudience, issuedTime := wTime,
        data := [], binding := [], signature := [9],
        decoded := rawLayout 0 1 (List.replicate 16 7) 1 wIssuer wAudience
          wTime [] [] ++ [9] } (by decide)⟩

/-- **C4.** Multi-key signature verification in both SDKs iterates the
supplied key list in order over the canonical signing input (every byte
preceding the signature) and the signature: the result is exactly
`keys.any`, i.e. true iff some key in the list verifies (first success
short-circuits `List.any`); a key that fails to verify — `verify` returns a
boolean, malformed signatures included — is a non-match, not a hard error;
a token whose signing key's public part appears anywhere in the list is
accepted, and when verification can only succeed under a key absent from
the list the result is false.  JS is `isSignatureValid` with the signature
offset passed explicitly (as `CountersignedToken.fromSerialized` does);
Java is `isSignatureValid` on the parsed token. -/
theorem c4_multikey {κ : Type} (verify : κ → Bytes → Bytes → Bool)
    (raw sig : Bytes) (f : JavaFields)
    (hdec : f.decoded = raw ++ sig) (hsig : f.signature = sig) :
    (∀ keys : List κ,
      jsIsSignatureValid verify (raw ++ sig) keys (some raw.length) =
        .ok (keys.any fun k => verify k raw sig)) ∧
    (∀ keys : List κ,
      jsIsSignatureValid verify (raw ++ sig) keys (some raw.length) =
          .ok true ↔
        ∃ k ∈ keys, verify k raw sig = true) ∧
    (∀ (ks1 ks2 : List κ) (k : κ), verify k raw sig = true →
      jsIsSignatureValid verify (raw ++ sig) (ks1 ++ k :: ks2)
        (some raw.length) = .ok true) ∧
    (∀ (keys : List κ) (pubK : κ),
      (∀ k, verify k raw sig = true → k = pubK) → pubK ∉ keys →
      jsIsSignatureValid verify (raw ++ sig) keys (some raw.length) =
        .ok false) ∧
    (∀ keys : List κ,
      javaIsSignatureValid verify f keys = true ↔
        ∃ k ∈ keys, verify k raw sig = true) := by
  have hjs : ∀ keys : List κ,
      jsIsSignatureValid verify (raw ++ sig) keys (some raw.length) =
        .ok (keys.any fun k => verify k raw sig) := by
    intro keys
    unfold jsIsSignatureValid
    simp only
    rw [List.take_left, List.drop_left]
  have hjava : ∀ keys : List κ,
      javaIsSignatureValid verify f keys =
        (keys.any fun k => verify k raw sig) := by
    intro keys
    unfold javaIsSignatureValid
    rw [hdec, hsig]
    rw [show (raw ++ sig).length - sig.length = raw.length from by simp]
    rw [List.take_left]
  refine ⟨hjs, ?_, ?_, ?_, ?_⟩
  · intro keys
    rw [hjs keys]
    constructor
    · intro h
      have : (keys.any fun k => verify k raw sig) = true := by
        simpa using h
      simpa [List.any_eq_true] using this
    · intro h
      have : (keys.any fun k => verify k raw sig) = true := by
        simpa [List.any_eq_true] using h
      rw [this]
  · intro ks1 ks2 k hk
    rw [hjs (ks1 ++ k :: ks2)]
    have : ((ks1 ++ k :: ks2).any fun j => verify j raw sig) = true := by
      rw [List.any_eq_true]
      exact ⟨k, by simp, hk⟩
    rw [this]
  · intro keys pubK honly habs
    rw [hjs keys]
    have : (keys.any fun k => verify k raw sig) = false := by
      rw [List.any_eq_false]
      intro k hk
      intro hcon
      exact habs (honly k hcon ▸ hk)
    rw [this]
  · intro keys
    rw [hjava keys]
    exact List.any_eq_true

/-- **C4 witness.** Concrete instantiation: a two-key list where only the
second key verifies is accepted; removing it yields false. -/
theorem c4_multikey_witness :
    (jsIsSignatureValid
        (fun (k : Nat) (r s : Bytes) => decide (k = 1 ∧ r = [5] ∧ s = [9]))
        ([5] ++ [9]) [0, 1] (some 1) = .ok true) ∧
    (jsIsSignatureValid
        (fun (k : Nat) (r s : Bytes) => decide (k = 1 ∧ r = [5] ∧ s = [9]))
        ([5] ++ [9]) [0, 2] (some 1) = .ok false) ∧
    javaIsSignatureValid
        (fun (k : Nat) (r s : Bytes) => decide (k = 1 ∧ r = [5] ∧ s = [9]))
        { version := 0, type := 1, id := [], options := 0, issuer := [],
          audience := [], issuedTime := [], data := [], binding := [],
          signature := [9], decoded := [5] ++ [9] } [2, 1] = true :=
  ⟨(c4_multikey (fun (k : Nat) (r s : Bytes) =>
        decide (k = 1 ∧ r = [5] ∧ s = [9])) [5] [9]
      { version := 0, type := 1, id := [], options := 0, issuer := [],
        audience := [], issuedTime := [], data := [], binding := [],
        signature := [9], decoded := [5] ++ [9] } rfl rfl).2.1 [0, 1]
      |>.mpr ⟨1, by decide, by decide⟩,
   (c4_multikey (fun (k : Nat) (r s : Bytes) =>
        decide (k = 1 ∧ r = [5] ∧ s = [9])) [5] [9]
      { version := 0, type := 1, id := [], options := 0, issuer := [],
        audience := [], issuedTime := [], data := [], binding := [],
        signature := [9], decoded := [5] ++ [9] } rfl rfl).2.2.2.1 [0, 2] 1
      (by intro k hk; simpa using (of_decide_eq_true hk).1) (by decide),
   (c4_multikey (fun (k : Nat) (r s : Bytes) =>
        decide (k = 1 ∧ r = [5] ∧ s = [9])) [5] [9]
      { version := 0, type := 1, id := [], options := 0, issuer := [],
        audience := [], issuedTime := [], data := [], binding := [],
        signature := [9], decoded := [5] ++ [9] } rfl rfl).2.2.2.2 [2, 1]
      |>.mpr ⟨1, by decide, by decide⟩⟩

/-- **C8.** JS `isSignatureValid` with the `signatureOffset` argument
defaulted reads the property `signatureOffset` from the result of
`deserialize`, but `deserialize` stores the signature start offset under the
name `signatureIndex`; the read is therefore `undefined`, `slice(0,
undefined)` and `slice(undefined)` are both the entire buffer, and the
verified byte range is not the canonical signing input.  For every
well-formed signed token buffer `raw ++ sig` (nonempty signature, parseable
buffer) and any keys that verify only the canonical pair `(raw, sig)` —
including a list containing the matching public key — the defaulted call
returns false, while passing the offset explicitly returns true. -/
theorem c8_default_offset {κ : Type} (verify : κ → Bytes → Bytes → Bool)
    (raw sig : Bytes) (keys : List κ) (pubK : κ)
    (hne : sig ≠ [])
    (hparse : (jsDeserialize (raw ++ sig)).isSome = true)
    (hcanon : ∀ k m s, verify k m s = true → m = raw ∧ s = sig)
    (hmem : pubK ∈ keys) (hver : verify pubK raw sig = true) :
    jsIsSignatureValid verify (raw ++ sig) keys none = .ok false ∧
    jsIsSignatureValid verify (raw ++ sig) keys (some raw.length) =
      .ok true := by
  constructor
  · unfold jsIsSignatureValid
    cases hp : jsDeserialize (raw ++ sig) with
    | none => rw [hp] at hparse; simp at hparse
    | some fars =>
      simp only
      congr 1
      rw [List.any_eq_false]
      intro k _
      intro hcon
      have hm := (hcanon k _ _ hcon).1
      have : raw.length < (raw ++ sig).length := by
        have : sig.length ≠ 0 := by
          intro hz
          exact hne (List.length_eq_zero.mp hz)
        simp only [List.length_append]
        omega
      rw [hm] at this
      omega
  · unfold jsIsSignatureValid
    simp only
    rw [List.take_left, List.drop_left]
    congr 1
    rw [List.any_eq_true]
    exact ⟨pubK, hmem, hver⟩

/-- **C8 witness.** A concrete parseable 22-byte token with a one-byte
signature and the matching key in the list: the defaulted call returns
false, the explicit-offset call true. -/
theorem c8_default_offset_witness :
    jsIsSignatureValid
      (fun (k : Nat) (r s : Bytes) =>
        decide (k = 1 ∧ r = List.replicate 29 0 ∧ s = [1]))
      (List.replicate 29 0 ++ [1]) [1] none = .ok false ∧
    jsIsSignatureValid
      (fun (k : Nat) (r s : Bytes) =>
        decide (k = 1 ∧ r = List.replicate 29 0 ∧ s = [1]))
      (List.replicate 29 0 ++ [1]) [1]
      (some (List.replicate 29 (0 : Nat)).length) = .ok true :=
  c8_default_offset
    (fun (k : Nat) (r s : Bytes) =>
      decide (k = 1 ∧ r = List.replicate 29 0 ∧ s = [1]))
    (List.replicate 29 0) [1] [1] 1 (by decide) (by decide)
    (by
      intro k m s h
      have := of_decide_eq_true h
      exact ⟨this.2.1, this.2.2⟩)
    (by decide) (by decide)

/-- A JavaScript value reaching `deserialize` / `isSignatureValid`: a string
primitive, a boxed `String` object, or a `Buffer`. -/
inductive JsValue where
  | primString (s : Bytes)
  | boxedString (s : Bytes)
  | buffer (b : Bytes)
deriving DecidableEq, Repr

/-- The guard `serialized instanceof String` (index.js lines 136-138,
206-208): true only for boxed `String` objects, never for string
primitives; when it holds the value is base64-decoded into a Buffer
(`b64` abstracts `new Buffer(s, 'base64')`). -/
def jsToBuffer (b64 : Bytes → Bytes) (v : JsValue) : JsValue :=
  match v with
  | .boxedString s => .buffer (b64 s)
  | other => other

/-- `RecoveryToken.deserialize` on an arbitrary input value: after the
`instanceof String` conversion, every subsequent step calls `Buffer` methods
(`readUInt8` etc.), which throw a `TypeError` on a value that has none. -/
def jsDeserializeValue (b64 : Bytes → Bytes) (v : JsValue) :
    Except JsErr TokenFields :=
  match jsToBuffer b64 v with
  | .buffer b =>
    match jsDeserialize b with
    | none => .error .rangeErr
    | some f => .ok f
  | _ => .error .typeErr

/-- `RecoveryToken.isSignatureValid` on an arbitrary input value.  A string
primitive fails the `instanceof String` guard and stays a string.  With the
offset defaulted, the source then calls `RecoveryToken.deserialize` on it,
which throws (`TypeError`: strings have no `readUInt8`).  With an explicit
offset no Buffer method is needed: `serialized.slice` is
`String.prototype.slice` (here take/drop on the character sequence), and
Node's `verify.update`/`verify.verify` accept string arguments, so the key
loop runs over the UNDECODED base64 text and returns a boolean.  The
`boxedString` arm after `jsToBuffer` is unreachable (the guard converted it
to a Buffer). -/
def jsIsSignatureValidValue {κ : Type} (b64 : Bytes → Bytes)
    (verify : κ → Bytes → Bytes → Bool) (v : JsValue) (keys : List κ)
    (off : Option Nat) : Except JsErr Bool :=
  match jsToBuffer b64 v with
  | .buffer b => jsIsSignatureValid verify b keys off
  | .primString s =>
    match off with
    | none => .error .typeErr
    | some o => .ok (keys.any fun k => verify k (s.take o) (s.drop o))
  | .boxedString _ => .error .typeErr

/-- **C10 counterexample.** The claim says `isSignatureValid` on a string
primitive throws instead of returning a verification result.  With an
explicit `signatureOffset` it does not: `isSignatureValid('AAAA', [], 5)`
runs `String.prototype.slice` and returns `false` (here with an arbitrary
concrete base64 decoder and verifier, neither of which is reached). -/
theorem c10_counterexample :
    jsIsSignatureValidValue (fun _ => []) (fun (_ : Unit) _ _ => true)
      (.primString [65, 65, 65, 65]) [] (some 5) = .ok false := by decide

/-- **C10 amended.** A JavaScript string primitive fails the `serialized
instanceof String` guard, so it is never base64-decoded into a Buffer.
`RecoveryToken.deserialize` on a string primitive therefore always throws
(`TypeError` from calling the Buffer method `readUInt8` on a string) instead
of returning parsed fields, and so does `RecoveryToken.isSignatureValid`
with the offset defaulted (it calls `deserialize`).  But
`isSignatureValid` with an explicit offset does not throw on a string
primitive: `String.prototype.slice` slices the base64 text and Node's
crypto accepts string input, so it returns a boolean verification result —
computed over the undecoded base64 text, never over the decoded token
bytes.  Only Buffer inputs and boxed `String` objects are base64-decoded
and processed as token bytes. -/
theorem c10_amended {κ : Type} (b64 : Bytes → Bytes)
    (verify : κ → Bytes → Bytes → Bool) :
    (∀ s : Bytes, jsDeserializeValue b64 (.primString s) = .error .typeErr) ∧
    (∀ (s : Bytes) (keys : List κ),
      jsIsSignatureValidValue b64 verify (.primString s) keys none =
        .error .typeErr) ∧
    (∀ (s : Bytes) (keys : List κ) (o : Nat),
      jsIsSignatureValidValue b64 verify (.primString s) keys (some o) =
        .ok (keys.any fun k => verify k (s.take o) (s.drop o))) ∧
    (∀ s : Bytes, jsDeserializeValue b64 (.boxedString s) =
      jsDeserializeValue b64 (.buffer (b64 s))) ∧
    (∀ (s : Bytes) (keys : List κ) (off : Option Nat),
      jsIsSignatureValidValue b64 verify (.boxedString s) keys off =
        jsIsSignatureValid verify (b64 s) keys off) :=
  ⟨fun _ => rfl, fun _ _ => rfl, fun _ _ _ => rfl, fun _ => rfl,
   fun _ _ _ => rfl⟩

/-- **C6.** The origin validator accepts a string iff it matches the spec
grammar `^https://([a-z0-9-]{1,63}\.)+[a-z]{2,63}(:[0-9]+)?$` (literal
`https://`, lower-case DNS labels, alphabetic TLD, optional numeric port, no
path or trailing slash); appending a trailing `/` to any accepted origin
makes it rejected; and the token constructors fail with the invalid-origin
error when issuer or audience does not match (the JS `RecoveryToken`
constructor throws `malformed issuer` / `malformed audience`, and the Java
parsing constructor's `commonSanityCheck` throws `InvalidOriginException`
for a well-formed buffer whose issuer fails the grammar). -/
theorem c6_origin_validator :
    (∀ s : Bytes, originMatch s = true ↔ OriginSpec s) ∧
    (∀ s : Bytes, originMatch s = true → originMatch (s ++ [47]) = false) ∧
    (∀ (id : Bytes) (options : Nat)
        (issuer audience issuedTime data binding signature nowIso : Bytes),
      originMatch issuer = false →
      jsRecoveryTokenMk id options issuer audience issuedTime data binding
        signature nowIso = .error .malformedIssuer) ∧
    (∀ (id : Bytes) (options : Nat)
        (issuer audience issuedTime data binding signature nowIso : Bytes),
      originMatch issuer = true → originMatch audience = false →
      jsRecoveryTokenMk id options issuer audience issuedTime data binding
        signature nowIso = .error .malformedAudience) ∧
    (∀ (id : Bytes) (options : Nat)
        (issuer audience issuedTime data binding sig : Bytes),
      id.length = 16 → AsciiStr issuer → originMatch issuer = false →
      issuer.length ≤ 65535 → audience.length ≤ 65535 →
      issuedTime.length ≤ 65535 → data.length ≤ 65535 →
      binding.length ≤ 65535 →
      javaTokenFromEncoded
        (rawLayout 0 1 id options issuer audience issuedTime data binding
          ++ sig) = .error .invalidOrigin) := by
  refine ⟨originMatch_iff, fun s h => originMatch_trailing_slash h,
    ?_, ?_, ?_⟩
  · intro id options issuer audience issuedTime data binding signature
      nowIso hbad
    unfold jsRecoveryTokenMk
    rw [hbad]
    simp
  · intro id options issuer audience issuedTime data binding signature
      nowIso hiss hbad
    unfold jsRecoveryTokenMk
    rw [hiss, hbad]
    simp
  · intro id options issuer audience issuedTime data binding sig hid hascii
      hbad hissl haudl html hdat hbin
    unfold javaTokenFromEncoded
    rw [javaParse_rawLayout 0 1 id options issuer audience issuedTime data
      binding sig hid hissl haudl html hdat hbin]
    rw [asciiDecodeJava_asciiEncode hascii]
    simp [hbad]

/-- **C6 witness.** `https://ap.example` is accepted and its grammar
decomposition exists; with the trailing slash it is rejected; concrete
constructor calls fail with the invalid-origin errors. -/
theorem c6_origin_validator_witness :
    originMatch (wIssuer ++ [47]) = false ∧
    jsRecoveryTokenMk (List.replicate 16 7) 1 [104] wAudience wTime [] []
      [] [] = .error .malformedIssuer ∧
    jsRecoveryTokenMk (List.replicate 16 7) 1 wIssuer [104] wTime [] []
      [] [] = .error .malformedAudience ∧
    javaTokenFromEncoded
      (rawLayout 0 1 (List.replicate 16 7) 1 [104] wAudience wTime [] []
        ++ [9]) = .error .invalidOrigin :=
  ⟨c6_origin_validator.2.1 wIssuer (by decide),
   c6_origin_validator.2.2.1 (List.replicate 16 7) 1 [104] wAudience wTime
     [] [] [] [] (by decide),
   c6_origin_validator.2.2.2.1 (List.replicate 16 7) 1 wIssuer [104] wTime
     [] [] [] [] (by decide) (by decide),
   c6_origin_validator.2.2.2.2 (List.replicate 16 7) 1 [104] wAudience wTime
     [] [] [9] (by decide) (by decide) (by decide) (by decide) (by decide)
     (by decide) (by decide) (by decide)⟩

/-- **C7 counterexample.** The claim says a known record with status
`deleted` is removed; the node route's `switch` has no `deleted` case, so
the store is returned unchanged with the record still present. -/
theorem c7_counterexample :
    jsStatusRoute
      [{ id := [120], username := [117], hash := [104],
         status := .provisional }] [120] strDeleted =
      ([{ id := [120], username := [117], hash := [104],
          status := .provisional }], 200, []) ∧
    ([{ id := [120], username := [117], hash := [104],
        status := RecordStatus.provisional }] : List TokenRecord) ≠ [] := by
  constructor
  · decide
  · decide

/-- **C7 amended.** Both token-status routes always reply HTTP 200 with an
empty body and silently ignore unknown ids.  For a known id: `save-success`
confirms the record and `token-repudiated` invalidates it in both routes;
`save-failure` removes it in both (first match in JS, all matches in Java);
but `deleted` removes the record only in the Java route — the node route's
`switch` has no `deleted` case and leaves the store unchanged; any other
status leaves the store unchanged in both. -/
theorem c7_amended (records : List TokenRecord) (id status : Bytes) :
    ((jsStatusRoute records id status).2 = (200, ([] : Bytes))) ∧
    ((javaStatusRoute records id (some status)).2 = (200, ([] : Bytes))) ∧
    ((javaStatusRoute records id none).1 = records) ∧
    ((records.find? fun r => r.id == id) = none →
      (jsStatusRoute records id status).1 = records ∧
      (javaStatusRoute records id (some status)).1 = records) ∧
    ((records.find? fun r => r.id == id).isSome = true →
      (status = strSaveSuccess →
        (jsStatusRoute records id status).1 =
          setStatusFirst records id .confirmed ∧
        (javaStatusRoute records id (some status)).1 =
          setStatusFirst records id .confirmed) ∧
      (status = strSaveFailure →
        (jsStatusRoute records id status).1 = removeFirst records id ∧
        (javaStatusRoute records id (some status)).1 =
          removeAllById records id) ∧
      (status = strTokenRepudiated →
        (jsStatusRoute records id status).1 =
          setStatusFirst records id .invalid ∧
        (javaStatusRoute records id (some status)).1 =
          setStatusFirst records id .invalid) ∧
      (status = strDeleted →
        (jsStatusRoute records id status).1 = records ∧
        (javaStatusRoute records id (some status)).1 =
          removeAllById records id) ∧
      (status ≠ strSaveSuccess → status ≠ strSaveFailure →
        status ≠ strTokenRepudiated → status ≠ strDeleted →
        (jsStatusRoute records id status).1 = records ∧
        (javaStatusRoute records id (some status)).1 = records)) := by
  refine ⟨rfl, rfl, rfl, ?_, ?_⟩
  · intro hnone
    constructor
    · simp [jsStatusRoute, hnone]
    · simp [javaStatusRoute, hnone]
  · intro hsome
    refine ⟨?_, ?_, ?_, ?_, ?_⟩
    · rintro rfl
      constructor
      · simp [jsStatusRoute, hsome]
      · simp [javaStatusRoute, hsome]
    · rintro rfl
      constructor
      · simp [jsStatusRoute, hsome, strSaveFailure, strSaveSuccess]
      · simp [javaStatusRoute, hsome, strSaveFailure, strSaveSuccess]
    · rintro rfl
      constructor
      · simp [jsStatusRoute, hsome, strTokenRepudiated, strSaveSuccess,
          strSaveFailure]
      · simp [javaStatusRoute, hsome, strTokenRepudiated, strSaveSuccess,
          strSaveFailure, strDeleted]
    · rintro rfl
      constructor
      · simp [jsStatusRoute, hsome, strDeleted, strSaveSuccess,
          strSaveFailure, strTokenRepudiated]
      · simp [javaStatusRoute, hsome, strDeleted, strSaveSuccess,
          strSaveFailure]
    · intro h1 h2 h3 h4
      constructor
      · simp [jsStatusRoute, hsome, h1, h2, h3]
      · simp [javaStatusRoute, hsome, h1, h2, h3, h4]

/-- **C7 amended witness.** Concrete store with one known record:
`save-success` confirms it in the node route. -/
theorem c7_amended_witness :
    (jsStatusRoute
      [{ id := [120], username := [117], hash := [104],
         status := .provisional }] [120] strSaveSuccess).1 =
      setStatusFirst
        [{ id := [120], username := [117], hash := [104],
           status := .provisional }] [120] .confirmed :=
  (((c7_amended
      [{ id := [120], username := [117], hash := [104],
         status := .provisional }] [120]
      strSaveSuccess).2.2.2.2 (by decide)).1 rfl).1

theorem readU16_oob (l : Bytes) (i : Nat) (h : l.length ≤ i) :
    readU16 l i = none := by
  unfold readU16
  rw [List.getElem?_eq_none h]

theorem javaCopyOfRange_oob (l : Bytes) (i len : Nat) (h : l.length < i) :
    javaCopyOfRange l i len = none := by
  unfold javaCopyOfRange
  rw [if_neg (by omega)]

theorem javaCopyOfRange_pad (pre tail : Bytes) (i n : Nat)
    (hi : pre.length = i) (h : tail.length ≤ n) :
    javaCopyOfRange (pre ++ tail) i n =
      some (tail ++ List.replicate (n - tail.length) 0) := by
  subst hi
  unfold javaCopyOfRange
  rw [if_pos (by simp)]
  rw [List.drop_left]
  rw [show (pre ++ tail).length - pre.length = tail.length from by simp]
  rw [List.take_of_length_le h]

/-- **C5 counterexample.** A 29-byte buffer that is well-formed through the
`data` field but whose binding length field declares 5 bytes with 0 bytes
remaining: the claim says deserialization must fail with `MalformedToken`,
but JS `RecoveryToken.deserialize` accepts it, silently truncating the
binding to empty and returning an empty signature (with `signatureIndex`
pointing past the end of the buffer). -/
theorem c5_counterexample :
    jsDeserialize
      ([0, 1] ++ List.replicate 16 0 ++ [0] ++ [0, 0] ++ [0, 0] ++ [0, 0] ++
        [0, 0] ++ [0, 5]) =
      some { version := 0, type := 1, id := List.replicate 16 0, options := 0,
             issuer := [], audience := [], issuedTime := [], data := [],
             binding := [],
             raw := [0, 1] ++ List.replicate 16 0 ++ [0] ++ [0, 0] ++ [0, 0]
               ++ [0, 0] ++ [0, 0] ++ [0, 5],
             signatureIndex := 34, signature := [] } := by decide

/-- **C5 amended.** Deserialization fails on every buffer that is too short
at a fixed-offset read (JS: any buffer shorter than the 21-byte fixed
header), and on every buffer whose issuer, audience, issuedTime or data
length field overruns the remaining input (the next read lands past the
end); the Java parser also rejects issuer-length and binding-length
overruns (`ArrayIndexOutOfBoundsException`).  But a buffer whose final
binding length field overruns the remaining input is NOT rejected by JS
`deserialize`: it is accepted with the binding silently truncated, an empty
signature, and `signatureIndex` past the end of the buffer. -/
theorem c5_amended :
    (∀ l : Bytes, l.length < 21 → jsDeserialize l = none) ∧
    (∀ (v t : Nat) (id : Bytes) (o n : Nat) (tail : Bytes),
      id.length = 16 → n ≤ 65535 → tail.length < n →
      jsDeserialize ([v, t] ++ id ++ [o] ++ u16be n ++ tail) = none) ∧
    (∀ (v t : Nat) (id : Bytes) (o : Nat) (issuer : Bytes) (n : Nat)
        (tail : Bytes),
      id.length = 16 → issuer.length ≤ 65535 → n ≤ 65535 → tail.length < n →
      jsDeserialize ([v, t] ++ id ++ [o] ++ u16be issuer.length ++ issuer ++
        u16be n ++ tail) = none) ∧
    (∀ (v t : Nat) (id : Bytes) (o : Nat) (issuer audience : Bytes) (n : Nat)
        (tail : Bytes),
      id.length = 16 → issuer.length ≤ 65535 → audience.length ≤ 65535 →
      n ≤ 65535 → tail.length < n →
      jsDeserialize ([v, t] ++ id ++ [o] ++ u16be issuer.length ++ issuer ++
        u16be audience.length ++ audience ++ u16be n ++ tail) = none) ∧
    (∀ (v t : Nat) (id : Bytes) (o : Nat) (issuer audience issuedTime : Bytes)
        (n : Nat) (tail : Bytes),
      id.length = 16 → issuer.length ≤ 65535 → audience.length ≤ 65535 →
      issuedTime.length ≤ 65535 → n ≤ 65535 → tail.length < n →
      jsDeserialize ([v, t] ++ id ++ [o] ++ u16be issuer.length ++ issuer ++
        u16be audience.length ++ audience ++ u16be issuedTime.length ++
        issuedTime ++ u16be n ++ tail) = none) ∧
    (∀ (v t : Nat) (id : Bytes) (o : Nat)
        (issuer audience issuedTime data : Bytes) (n : Nat) (tail : Bytes),
      id.length = 16 → issuer.length ≤ 65535 → audience.length ≤ 65535 →
      issuedTime.length ≤ 65535 → data.length ≤ 65535 → n ≤ 65535 →
      tail.length < n →
      jsDeserialize ([v, t] ++ id ++ [o] ++ u16be issuer.length ++ issuer ++
        u16be audience.length ++ audience ++ u16be issuedTime.length ++
        issuedTime ++ u16be data.length ++ data ++ u16be n ++ tail) =
        some { version := v, type := t, id := id, options := o,
               issuer := asciiDecodeJs issuer,
               audience := asciiDecodeJs audience,
               issuedTime := asciiDecodeJs issuedTime,
               data := data, binding := tail,
               raw := [v, t] ++ id ++ [o] ++ u16be issuer.length ++ issuer ++
                 u16be audience.length ++ audience ++
                 u16be issuedTime.length ++ issuedTime ++
                 u16be data.length ++ data ++ u16be n ++ tail,
               signatureIndex := 21 + issuer.length + 2 + audience.length +
                 2 + issuedTime.length + 2 + data.length + 2 + n,
               signature := [] }) ∧
    (∀ (v t : Nat) (id : Bytes) (o n : Nat) (tail : Bytes),
      id.length = 16 → n ≤ 65535 → tail.length < n →
      javaParse ([v, t] ++ id ++ [o] ++ u16be n ++ tail) = none) ∧
    (∀ (v t : Nat) (id : Bytes) (o : Nat)
        (issuer audience issuedTime data : Bytes) (n : Nat) (tail : Bytes),
      id.length = 16 → issuer.length ≤ 65535 → audience.length ≤ 65535 →
      issuedTime.length ≤ 65535 → data.length ≤ 65535 → n ≤ 65535 →
      tail.length < n →
      javaParse ([v, t] ++ id ++ [o] ++ u16be issuer.length ++ issuer ++
        u16be audience.length ++ audience ++ u16be issuedTime.length ++
        issuedTime ++ u16be data.length ++ data ++ u16be n ++ tail) =
        none) := by
  refine ⟨?_, ?_, ?_, ?_, ?_, ?_, ?_, ?_⟩
  · intro l hl
    have h19 : readU16 l 19 = none := by
      unfold readU16
      rw [List.getElem?_eq_none (show l.length ≤ 19 + 1 by omega)]
      cases l[19]? <;> rfl
    simp only [jsDeserialize, h19]
    cases readU8 l 0 <;> cases readU8 l 1 <;> cases readU8 l 18 <;>
      simp [Option.bind]
  · intro v t id o n tail hid hn hov
    have r19 : readU16 ([v, t] ++ id ++ [o] ++ u16be n ++ tail) 19
        = some n := by
      have e : [v, t] ++ id ++ [o] ++ u16be n ++ tail
          = (v :: t :: (id ++ [o])) ++ (u16be n ++ tail) := by
        simp [List.append_assoc]
      rw [e]
      exact readU16_exact _ _ _ _ hn (by simp [hid])
    have roob : readU16 ([v, t] ++ id ++ [o] ++ u16be n ++ tail) (21 + n)
        = none := readU16_oob _ _ (by simp [hid, u16be]; omega)
    simp only [jsDeserialize, r19, roob, Option.bind]
    cases readU8 ([v, t] ++ id ++ [o] ++ u16be n ++ tail) 0 <;>
      cases readU8 ([v, t] ++ id ++ [o] ++ u16be n ++ tail) 1 <;>
      cases readU8 ([v, t] ++ id ++ [o] ++ u16be n ++ tail) 18 <;>
      simp [Option.bind]
  · intro v t id o issuer n tail hid hissl hn hov
    have r19 : readU16 ([v, t] ++ id ++ [o] ++ u16be issuer.length ++ issuer
        ++ u16be n ++ tail) 19 = some issuer.length := by
      have e : [v, t] ++ id ++ [o] ++ u16be issuer.length ++ issuer ++
          u16be n ++ tail
          = (v :: t :: (id ++ [o])) ++
            (u16be issuer.length ++ (issuer ++ (u16be n ++ tail))) := by
        simp [List.append_assoc]
      rw [e]
      exact readU16_exact _ _ _ _ hissl (by simp [hid])
    have rA : readU16 ([v, t] ++ id ++ [o] ++ u16be issuer.length ++ issuer
        ++ u16be n ++ tail) (21 + issuer.length) = some n := by
      have e : [v, t] ++ id ++ [o] ++ u16be issuer.length ++ issuer ++
          u16be n ++ tail
          = (v :: t :: (id ++ ([o] ++ (u16be issuer.length ++ issuer)))) ++
            (u16be n ++ tail) := by
        simp [List.append_assoc]
      rw [e]
      exact readU16_exact _ _ _ _ hn (by simp [hid, u16be]; omega)
    have roob : readU16 ([v, t] ++ id ++ [o] ++ u16be issuer.length ++ issuer
        ++ u16be n ++ tail) (21 + issuer.length + 2 + n) = none :=
      readU16_oob _ _ (by simp [hid, u16be]; omega)
    simp only [jsDeserialize, r19, rA, roob, Option.bind]
    cases readU8 ([v, t] ++ id ++ [o] ++ u16be issuer.length ++ issuer ++
        u16be n ++ tail) 0 <;>
      cases readU8 ([v, t] ++ id ++ [o] ++ u16be issuer.length ++ issuer ++
        u16be n ++ tail) 1 <;>
      cases readU8 ([v, t] ++ id ++ [o] ++ u16be issuer.length ++ issuer ++
        u16be n ++ tail) 18 <;>
      simp [Option.bind]
  · intro v t id o issuer audience n tail hid hissl haudl hn hov
    have r19 : readU16 ([v, t] ++ id ++ [o] ++ u16be issuer.length ++ issuer
        ++ u16be audience.length ++ audience ++ u16be n ++ tail) 19
        = some issuer.length := by
      have e : [v, t] ++ id ++ [o] ++ u16be issuer.length ++ issuer ++
          u16be audience.length ++ audience ++ u16be n ++ tail
          = (v :: t :: (id ++ [o])) ++
            (u16be issuer.length ++ (issuer ++ (u16be audience.length ++
              (audience ++ (u16be n ++ tail))))) := by
        simp [List.append_assoc]
      rw [e]
      exact readU16_exact _ _ _ _ hissl (by simp [hid])
    have rA : readU16 ([v, t] ++ id ++ [o] ++ u16be issuer.length ++ issuer
        ++ u16be audience.length ++ audience ++ u16be n ++ tail)
        (21 + issuer.length) = some audience.length := by
      have e : [v, t] ++ id ++ [o] ++ u16be issuer.length ++ issuer ++
          u16be audience.length ++ audience ++ u16be n ++ tail
          = (v :: t :: (id ++ ([o] ++ (u16be issuer.length ++ issuer)))) ++
            (u16be audience.length ++ (audience ++ (u16be n ++ tail))) := by
        simp [List.append_assoc]
      rw [e]
      exact readU16_exact _ _ _ _ haudl (by simp [hid, u16be]; omega)
    have rT : readU16 ([v, t] ++ id ++ [o] ++ u16be issuer.length ++ issuer
        ++ u16be audience.length ++ audience ++ u16be n ++ tail)
        (21 + issuer.length + 2 + audience.length) = some n := by
      have e : [v, t] ++ id ++ [o] ++ u16be issuer.length ++ issuer ++
          u16be audience.length ++ audience ++ u16be n ++ tail
          = (v :: t :: (id ++ ([o] ++ (u16be issuer.length ++ (issuer ++
              (u16be audience.length ++ audience)))))) ++
            (u16be n ++ tail) := by
        simp [List.append_assoc]
      rw [e]
      exact readU16_exact _ _ _ _ hn (by simp [hid, u16be]; omega)
    have roob : readU16 ([v, t] ++ id ++ [o] ++ u16be issuer.length ++ issuer
        ++ u16be audience.length ++ audience ++ u16be n ++ tail)
        (21 + issuer.length + 2 + audience.length + 2 + n) = none :=
      readU16_oob _ _ (by simp [hid, u16be]; omega)
    simp only [jsDeserialize, r19, rA, rT, roob, Option.bind]
    cases readU8 ([v, t] ++ id ++ [o] ++ u16be issuer.length ++ issuer ++
        u16be audience.length ++ audience ++ u16be n ++ tail) 0 <;>
      cases readU8 ([v, t] ++ id ++ [o] ++ u16be issuer.length ++ issuer ++
        u16be audience.length ++ audience ++ u16be n ++ tail) 1 <;>
      cases readU8 ([v, t] ++ id ++ [o] ++ u16be issuer.length ++ issuer ++
        u16be audience.length ++ audience ++ u16be n ++ tail) 18 <;>
      simp [Option.bind]
  · intro v t id o issuer audience issuedTime n tail hid hissl haudl html hn
      hov
    have r19 : readU16 ([v, t] ++ id ++ [o] ++ u16be issuer.length ++ issuer
        ++ u16be audience.length ++ audience ++ u16be issuedTime.length ++
        issuedTime ++ u16be n ++ tail) 19 = some issuer.length := by
      have e : [v, t] ++ id ++ [o] ++ u16be issuer.length ++ issuer ++
          u16be audience.length ++ audience ++ u16be issuedTime.length ++
          issuedTime ++ u16be n ++ tail
          = (v :: t :: (id ++ [o])) ++
            (u16be issuer.length ++ (issuer ++ (u16be audience.length ++
              (audience ++ (u16be issuedTime.length ++ (issuedTime ++
                (u16be n ++ tail))))))) := by
        simp [List.append_assoc]
      rw [e]
      exact readU16_exact _ _ _ _ hissl (by simp [hid])
    have rA : readU16 ([v, t] ++ id ++ [o] ++ u16be issuer.length ++ issuer
        ++ u16be audience.length ++ audience ++ u16be issuedTime.length ++
        issuedTime ++ u16be n ++ tail) (21 + issuer.length)
        = some audience.length := by
      have e : [v, t] ++ id ++ [o] ++ u16be issuer.length ++ issuer ++
          u16be audience.length ++ audience ++ u16be issuedTime.length ++
          issuedTime ++ u16be n ++ tail
          = (v :: t :: (id ++ ([o] ++ (u16be issuer.length ++ issuer)))) ++
            (u16be audience.length ++ (audience ++
              (u16be issuedTime.length ++ (issuedTime ++
                (u16be n ++ tail))))) := by
        simp [List.append_assoc]
      rw [e]
      exact readU16_exact _ _ _ _ haudl (by simp [hid, u16be]; omega)
    have rT : readU16 ([v, t] ++ id ++ [o] ++ u16be issuer.length ++ issuer
        ++ u16be audience.length ++ audience ++ u16be issuedTime.length ++
        issuedTime ++ u16be n ++ tail)
        (21 + issuer.length + 2 + audience.length)
        = some issuedTime.length := by
      have e : [v, t] ++ id ++ [o] ++ u16be issuer.length ++ issuer ++
          u16be audience.length ++ audience ++ u16be issuedTime.length ++
          issuedTime ++ u16be n ++ tail
          = (v :: t :: (id ++ ([o] ++ (u16be issuer.length ++ (issuer ++
              (u16be audience.length ++ audience)))))) ++
            (u16be issuedTime.length ++ (issuedTime ++ (u16be n ++ tail))) := by
        simp [List.append_assoc]
      rw [e]
      exact readU16_exact _ _ _ _ html (by simp [hid, u16be]; omega)
    have rD : readU16 ([v, t] ++ id ++ [o] ++ u16be issuer.length ++ issuer
        ++ u16be audience.length ++ audience ++ u16be issuedTime.length ++
        issuedTime ++ u16be n ++ tail)
        (21 + issuer.length + 2 + audience.length + 2 + issuedTime.length)
        = some n := by
      have e : [v, t] ++ id ++ [o] ++ u16be issuer.length ++ issuer ++
          u16be audience.length ++ audience ++ u16be issuedTime.length ++
          issuedTime ++ u16be n ++ tail
          = (v :: t :: (id ++ ([o] ++ (u16be issuer.length ++ (issuer ++
              (u16be audience.length ++ (audience ++
                (u16be issuedTime.length ++ issuedTime)))))))) ++
            (u16be n ++ tail) := by
        simp [List.append_assoc]
      rw [e]
      exact readU16_exact _ _ _ _ hn (by simp [hid, u16be]; omega)
    have roob : readU16 ([v, t] ++ id ++ [o] ++ u16be issuer.length ++ issuer
        ++ u16be audience.length ++ audience ++ u16be issuedTime.length ++
        issuedTime ++ u16be n ++ tail)
        (21 + issuer.length + 2 + audience.length + 2 + issuedTime.length +
          2 + n) = none :=
      readU16_oob _ _ (by simp [hid, u16be]; omega)
    simp only [jsDeserialize, r19, rA, rT, rD, roob, Option.bind]
    cases readU8 ([v, t] ++ id ++ [o] ++ u16be issuer.length ++ issuer ++
        u16be audience.length ++ audience ++ u16be issuedTime.length ++
        issuedTime ++ u16be n ++ tail) 0 <;>
      cases readU8 ([v, t] ++ id ++ [o] ++ u16be issuer.length ++ issuer ++
        u16be audience.length ++ audience ++ u16be issuedTime.length ++
        issuedTime ++ u16be n ++ tail) 1 <;>
      cases readU8 ([v, t] ++ id ++ [o] ++ u16be issuer.length ++ issuer ++
        u16be audience.length ++ audience ++ u16be issuedTime.length ++
        issuedTime ++ u16be n ++ tail) 18 <;>
      simp [Option.bind]
  · intro v t id o issuer audience issuedTime data n tail hid hissl haudl
      html hdat hn hov
    have e0 : [v, t] ++ id ++ [o] ++ u16be issuer.length ++ issuer ++
        u16be audience.length ++ audience ++ u16be issuedTime.length ++
        issuedTime ++ u16be data.length ++ data ++ u16be n ++ tail
        = v :: t :: (id ++ (o ::
          (u16be issuer.length ++ (issuer ++
          (u16be audience.length ++ (audience ++
          (u16be issuedTime.length ++ (issuedTime ++
          (u16be data.length ++ (data ++
          (u16be n ++ tail))))))))))) := by
      simp [List.append_assoc]
    rw [e0]
    set tTail : Bytes := u16be n ++ tail with htTail
    set tD : Bytes := data ++ tTail with htD
    set tLD : Bytes := u16be data.length ++ tD with htLD
    set tT : Bytes := issuedTime ++ tLD with htT
    set tLT : Bytes := u16be issuedTime.length ++ tT with htLT
    set tA : Bytes := audience ++ tLT with htA
    set tLA : Bytes := u16be audience.length ++ tA with htLA
    set tI : Bytes := issuer ++ tLA with htI
    set tLI : Bytes := u16be issuer.length ++ tI with htLI
    set N : Bytes := v :: t :: (id ++ (o :: tLI)) with hN
    have r0 : readU8 N 0 = some v := by rw [hN]; simp [readU8]
    have r1 : readU8 N 1 = some t := by rw [hN]; simp [readU8]
    have r2 : bslice N 2 16 = id := by
      have e : N = ([v, t] : Bytes) ++ (id ++ (o :: tLI)) := by simp [hN]
      rw [e]
      exact bslice_exact _ _ _ _ _ rfl hid
    have r18 : readU8 N 18 = some o := by
      have e : N = (v :: t :: id) ++ (o :: tLI) := by
        simp [hN, List.append_assoc]
      rw [e]
      exact readU8_exact _ _ _ _ (by simp [hid])
    have r19 : readU16 N 19 = some issuer.length := by
      have e : N = (v :: t :: (id ++ [o])) ++ (u16be issuer.length ++ tI) := by
        simp [hN, htLI, List.append_assoc]
      rw [e]
      exact readU16_exact _ _ _ _ hissl (by simp [hid])
    have r21 : bslice N 21 issuer.length = issuer := by
      have e : N = (v :: t :: (id ++ (o :: u16be issuer.length))) ++
          (issuer ++ tLA) := by
        simp [hN, htLI, htI, List.append_assoc]
      rw [e]
      exact bslice_exact _ _ _ _ _ (by simp [hid, u16be]) rfl
    have rA : readU16 N (21 + issuer.length) = some audience.length := by
      have e : N = (v :: t :: (id ++ (o ::
          (u16be issuer.length ++ issuer)))) ++
          (u16be audience.length ++ tA) := by
        simp [hN, htLI, htI, htLA, List.append_assoc]
      rw [e]
      exact readU16_exact _ _ _ _ haudl (by simp [hid, u16be]; omega)
    have rAs : bslice N (21 + issuer.length + 2) audience.length
        = audience := by
      have e : N = (v :: t :: (id ++ (o ::
          (u16be issuer.length ++ (issuer ++ u16be audience.length))))) ++
          (audience ++ tLT) := by
        simp [hN, htLI, htI, htLA, htA, List.append_assoc]
      rw [e]
      exact bslice_exact _ _ _ _ _ (by simp [hid, u16be]; omega) rfl
    have rT : readU16 N (21 + issuer.length + 2 + audience.length)
        = some issuedTime.length := by
      have e : N = (v :: t :: (id ++ (o ::
          (u16be issuer.length ++ (issuer ++
          (u16be audience.length ++ audience)))))) ++
          (u16be issuedTime.length ++ tT) := by
        simp [hN, htLI, htI, htLA, htA, htLT, List.append_assoc]
      rw [e]
      exact readU16_exact _ _ _ _ html (by simp [hid, u16be]; omega)
    have rTs : bslice N (21 + issuer.length + 2 + audience.length + 2)
        issuedTime.length = issuedTime := by
      have e : N = (v :: t :: (id ++ (o ::
          (u16be issuer.length ++ (issuer ++
          (u16be audience.length ++ (audience ++
           u16be issuedTime.length))))))) ++ (issuedTime ++ tLD) := by
        simp [hN, htLI, htI, htLA, htA, htLT, htT, List.append_assoc]
      rw [e]
      exact bslice_exact _ _ _ _ _ (by simp [hid, u16be]; omega) rfl
    have rD : readU16 N
        (21 + issuer.length + 2 + audience.length + 2 + issuedTime.length)
        = some data.length := by
      have e : N = (v :: t :: (id ++ (o ::
          (u16be issuer.length ++ (issuer ++
          (u16be audience.length ++ (audience ++
          (u16be issuedTime.length ++ issuedTime)))))))) ++
          (u16be data.length ++ tD) := by
        simp [hN, htLI, htI, htLA, htA, htLT, htT, htLD, List.append_assoc]
      rw [e]
      exact readU16_exact _ _ _ _ hdat (by simp [hid, u16be]; omega)
    have rDs : bslice N
        (21 + issuer.length + 2 + audience.length + 2 + issuedTime.length + 2)
        data.length = data := by
      have e : N = (v :: t :: (id ++ (o ::
          (u16be issuer.length ++ (issuer ++
          (u16be audience.length ++ (audience ++
          (u16be issuedTime.length ++ (issuedTime ++
           u16be data.length))))))))) ++ (data ++ tTail) := by
        simp [hN, htLI, htI, htLA, htA, htLT, htT, htLD, htD,
          List.append_assoc]
      rw [e]
      exact bslice_exact _ _ _ _ _ (by simp [hid, u16be]; omega) rfl
    have rB : readU16 N
        (21 + issuer.length + 2 + audience.length + 2 + issuedTime.length +
          2 + data.length) = some n := by
      have e : N = (v :: t :: (id ++ (o ::
          (u16be issuer.length ++ (issuer ++
          (u16be audience.length ++ (audience ++
          (u16be issuedTime.length ++ (issuedTime ++
          (u16be data.length ++ data)))))))))) ++ (u16be n ++ tail) := by
        simp [hN, htLI, htI, htLA, htA, htLT, htT, htLD, htD, htTail,
          List.append_assoc]
      rw [e]
      exact readU16_exact _ _ _ _ hn (by simp [hid, u16be]; omega)
    have rBs : bslice N
        (21 + issuer.length + 2 + audience.length + 2 + issuedTime.length +
          2 + data.length + 2) n = tail := by
      have e : N = (v :: t :: (id ++ (o ::
          (u16be issuer.length ++ (issuer ++
          (u16be audience.length ++ (audience ++
          (u16be issuedTime.length ++ (issuedTime ++
          (u16be data.length ++ (data ++ u16be n))))))))))) ++ tail := by
        simp [hN, htLI, htI, htLA, htA, htLT, htT, htLD, htD, htTail,
          List.append_assoc]
      rw [e]
      unfold bslice
      rw [List.drop_left' (by simp [hid, u16be]; omega)]
      exact List.take_of_length_le (le_of_lt hov)
    have hNlen : N.length = 21 + issuer.length + 2 + audience.length + 2 +
        issuedTime.length + 2 + data.length + 2 + tail.length := by
      simp [hN, htLI, htI, htLA, htA, htLT, htT, htLD, htD, htTail, u16be,
        hid]
      omega
    have htake : N.take
        (21 + issuer.length + 2 + audience.length + 2 + issuedTime.length +
          2 + data.length + 2 + n) = N :=
      List.take_of_length_le (by omega)
    have hdrop : N.drop
        (21 + issuer.length + 2 + audience.length + 2 + issuedTime.length +
          2 + data.length + 2 + n) = [] :=
      List.drop_eq_nil_of_le (by omega)
    simp only [jsDeserialize, r0, r1, r2, r18, r19, r21, rA, rAs, rT, rTs,
      rD, rDs, rB, rBs, Option.bind, htake, hdrop]
  · intro v t id o n tail hid hn hov
    have e0 : [v, t] ++ id ++ [o] ++ u16be n ++ tail
        = v :: t :: (id ++ (o :: (u16be n ++ tail))) := by
      simp [List.append_assoc]
    rw [e0]
    set N : Bytes := v :: t :: (id ++ (o :: (u16be n ++ tail))) with hN
    have r0 : readU8 N 0 = some v := by rw [hN]; simp [readU8]
    have r1 : readU8 N 1 = some t := by rw [hN]; simp [readU8]
    have r2 : javaCopyOfRange N 2 16 = some id := by
      have e : N = ([v, t] : Bytes) ++ (id ++ (o :: (u16be n ++ tail))) := by
        simp [hN]
      rw [e]
      exact javaCopyOfRange_exact _ _ _ _ _ rfl hid
    have r18 : readU8 N 18 = some o := by
      have e : N = (v :: t :: id) ++ (o :: (u16be n ++ tail)) := by
        simp [hN, List.append_assoc]
      rw [e]
      exact readU8_exact _ _ _ _ (by simp [hid])
    have r19 : readU16 N 19 = some n := by
      have e : N = (v :: t :: (id ++ [o])) ++ (u16be n ++ tail) := by
        simp [hN, List.append_assoc]
      rw [e]
      exact readU16_exact _ _ _ _ hn (by simp [hid])
    have r21 : javaCopyOfRange N 21 n
        = some (tail ++ List.replicate (n - tail.length) 0) := by
      have e : N = (v :: t :: (id ++ (o :: u16be n))) ++ tail := by
        simp [hN, List.append_assoc]
      rw [e]
      exact javaCopyOfRange_pad _ _ _ _ (by simp [hid, u16be]; try omega)
        (le_of_lt hov)
    have roob : readU16 N (21 + n) = none :=
      readU16_oob _ _ (by simp [hN, hid, u16be]; omega)
    simp only [javaParse, r0, r1, r2, r18, r19, r21, roob, Option.bind]
  · intro v t id o issuer audience issuedTime data n tail hid hissl haudl
      html hdat hn hov
    have e0 : [v, t] ++ id ++ [o] ++ u16be issuer.length ++ issuer ++
        u16be audience.length ++ audience ++ u16be issuedTime.length ++
        issuedTime ++ u16be data.length ++ data ++ u16be n ++ tail
        = v :: t :: (id ++ (o ::
          (u16be issuer.length ++ (issuer ++
          (u16be audience.length ++ (audience ++
          (u16be issuedTime.length ++ (issuedTime ++
          (u16be data.length ++ (data ++
          (u16be n ++ tail))))))))))) := by
      simp [List.append_assoc]
    rw [e0]
    set tTail : Bytes := u16be n ++ tail with htTail
    set tD : Bytes := data ++ tTail with htD
    set tLD : Bytes := u16be data.length ++ tD with htLD
    set tT : Bytes := issuedTime ++ tLD with htT
    set tLT : Bytes := u16be issuedTime.length ++ tT with htLT
    set tA : Bytes := audience ++ tLT with htA
    set tLA : Bytes := u16be audience.length ++ tA with htLA
    set tI : Bytes := issuer ++ tLA with htI
    set tLI : Bytes := u16be issuer.length ++ tI with htLI
    set N : Bytes := v :: t :: (id ++ (o :: tLI)) with hN
    have r0 : readU8 N 0 = some v := by rw [hN]; simp [readU8]
    have r1 : readU8 N 1 = some t := by rw [hN]; simp [readU8]
    have r2 : javaCopyOfRange N 2 16 = some id := by
      have e : N = ([v, t] : Bytes) ++ (id ++ (o :: tLI)) := by simp [hN]
      rw [e]
      exact javaCopyOfRange_exact _ _ _ _ _ rfl hid
    have r18 : readU8 N 18 = some o := by
      have e : N = (v :: t :: id) ++ (o :: tLI) := by
        simp [hN, List.append_assoc]
      rw [e]
      exact readU8_exact _ _ _ _ (by simp [hid])
    have r19 : readU16 N 19 = some issuer.length := by
      have e : N = (v :: t :: (id ++ [o])) ++ (u16be issuer.length ++ tI) := by
        simp [hN, htLI, List.append_assoc]
      rw [e]
      exact readU16_exact _ _ _ _ hissl (by simp [hid])
    have r21 : javaCopyOfRange N 21 issuer.length = some issuer := by
      have e : N = (v :: t :: (id ++ (o :: u16be issuer.length))) ++
          (issuer ++ tLA) := by
        simp [hN, htLI, htI, List.append_assoc]
      rw [e]
      exact javaCopyOfRange_exact _ _ _ _ _ (by simp [hid, u16be]) rfl
    have rA : readU16 N (21 + issuer.length) = some audience.length := by
      have e : N = (v :: t :: (id ++ (o ::
          (u16be issuer.length ++ issuer)))) ++
          (u16be audience.length ++ tA) := by
        simp [hN, htLI, htI, htLA, List.append_assoc]
      rw [e]
      exact readU16_exact _ _ _ _ haudl (by simp [hid, u16be]; omega)
    have rAs : javaCopyOfRange N (21 + issuer.length + 2) audience.length
        = some audience := by
      have e : N = (v :: t :: (id ++ (o ::
          (u16be issuer.length ++ (issuer ++ u16be audience.length))))) ++
          (audience ++ tLT) := by
        simp [hN, htLI, htI, htLA, htA, List.append_assoc]
      rw [e]
      exact javaCopyOfRange_exact _ _ _ _ _ (by simp [hid, u16be]; omega) rfl
    have rT : readU16 N (21 + issuer.length + 2 + audience.length)
        = some issuedTime.length := by
      have e : N = (v :: t :: (id ++ (o ::
          (u16be issuer.length ++ (issuer ++
          (u16be audience.length ++ audience)))))) ++
          (u16be issuedTime.length ++ tT) := by
        simp [hN, htLI, htI, htLA, htA, htLT, List.append_assoc]
      rw [e]
      exact readU16_exact _ _ _ _ html (by simp [hid, u16be]; omega)
    have rTs : javaCopyOfRange N
        (21 + issuer.length + 2 + audience.length + 2) issuedTime.length
        = some issuedTime := by
      have e : N = (v :: t :: (id ++ (o ::
          (u16be issuer.length ++ (issuer ++
          (u16be audience.length ++ (audience ++
           u16be issuedTime.length))))))) ++ (issuedTime ++ tLD) := by
        simp [hN, htLI, htI, htLA, htA, htLT, htT, List.append_assoc]
      rw [e]
      exact javaCopyOfRange_exact _ _ _ _ _ (by simp [hid, u16be]; omega) rfl
    have rD : readU16 N
        (21 + issuer.length + 2 + audience.length + 2 + issuedTime.length)
        = some data.length := by
      have e : N = (v :: t :: (id ++ (o ::
          (u16be issuer.length ++ (issuer ++
          (u16be audience.length ++ (audience ++
          (u16be issuedTime.length ++ issuedTime)))))))) ++
          (u16be data.length ++ tD) := by
        simp [hN, htLI, htI, htLA, htA, htLT, htT, htLD, List.append_assoc]
      rw [e]
      exact readU16_exact _ _ _ _ hdat (by simp [hid, u16be]; omega)
    have rDs : javaCopyOfRange N
        (21 + issuer.length + 2 + audience.length + 2 + issuedTime.length + 2)
        data.length = some data := by
      have e : N = (v :: t :: (id ++ (o ::
          (u16be issuer.length ++ (issuer ++
          (u16be audience.length ++ (audience ++
          (u16be issuedTime.length ++ (issuedTime ++
           u16be data.length))))))))) ++ (data ++ tTail) := by
        simp [hN, htLI, htI, htLA, htA, htLT, htT, htLD, htD,
          List.append_assoc]
      rw [e]
      exact javaCopyOfRange_exact _ _ _ _ _ (by simp [hid, u16be]; omega) rfl
    have rB : readU16 N
        (21 + issuer.length + 2 + audience.length + 2 + issuedTime.length +
          2 + data.length) = some n := by
      have e : N = (v :: t :: (id ++ (o ::
          (u16be issuer.length ++ (issuer ++
          (u16be audience.length ++ (audience ++
          (u16be issuedTime.length ++ (issuedTime ++
          (u16be data.length ++ data)))))))))) ++ (u16be n ++ tail) := by
        simp [hN, htLI, htI, htLA, htA, htLT, htT, htLD, htD, htTail,
          List.append_assoc]
      rw [e]
      exact readU16_exact _ _ _ _ hn (by simp [hid, u16be]; omega)
    have rBs : javaCopyOfRange N
        (21 + issuer.length + 2 + audience.length + 2 + issuedTime.length +
          2 + data.length + 2) n
        = some (tail ++ List.replicate (n - tail.length) 0) := by
      have e : N = (v :: t :: (id ++ (o ::
          (u16be issuer.length ++ (issuer ++
          (u16be audience.length ++ (audience ++
          (u16be issuedTime.length ++ (issuedTime ++
          (u16be data.length ++ (data ++ u16be n))))))))))) ++ tail := by
        simp [hN, htLI, htI, htLA, htA, htLT, htT, htLD, htD, htTail,
          List.append_assoc]
      rw [e]
      exact javaCopyOfRange_pad _ _ _ _ (by simp [hid, u16be]; omega)
        (le_of_lt hov)
    have hNlen : N.length = 21 + issuer.length + 2 + audience.length + 2 +
        issuedTime.length + 2 + data.length + 2 + tail.length := by
      simp [hN, htLI, htI, htLA, htA, htLT, htT, htLD, htD, htTail, u16be,
        hid]
      omega
    have roob : javaCopyOfRange N
        (21 + issuer.length + 2 + audience.length + 2 + issuedTime.length +
          2 + data.length + 2 + n)
        (N.length -
          (21 + issuer.length + 2 + audience.length + 2 + issuedTime.length +
            2 + data.length + 2 + n)) = none :=
      javaCopyOfRange_oob _ _ _ (by omega)
    simp only [javaParse, r0, r1, r2, r18, r19, r21, rA, rAs, rT, rTs, rD,
      rDs, rB, rBs, roob, Option.bind]

/-- **C5 amended witness.** Concrete instances: the empty buffer fails, an
issuer-length overrun fails in JS, and a binding-length overrun fails in the
Java parser. -/
theorem c5_amended_witness :
    jsDeserialize ([] : Bytes) = none ∧
    jsDeserialize ([0, 0] ++ List.replicate 16 0 ++ [0] ++ u16be 5 ++ [7]) =
      none ∧
    javaParse ([0, 1] ++ List.replicate 16 0 ++ [0] ++ u16be 0 ++ [] ++
      u16be 0 ++ [] ++ u16be 0 ++ [] ++ u16be 0 ++ [] ++ u16be 5 ++ []) =
      none :=
  ⟨c5_amended.1 [] (by decide),
   c5_amended.2.1 0 0 (List.replicate 16 0) 0 5 [7] (by decide) (by decide)
     (by decide),
   c5_amended.2.2.2.2.2.2.2 0 1 (List.replicate 16 0) 0 [] [] [] [] 5 []
     (by decide) (by decide) (by decide) (by decide) (by decide) (by decide)
     (by decide)⟩

theorem jsCS_wellformed {κ : Type} (verify : κ → Bytes → Bytes → Bool)
    (id : Bytes) (options : Nat)
    (issuer audience issuedTime data binding sig nowIso : Bytes)
    (keys : List κ) (skew : Int)
    (hid : id.length = 16) (hopt : options ≤ 255)
    (hiss : originMatch issuer = true) (haud : originMatch audience = true)
    (htm : AsciiStr issuedTime) (htmne : issuedTime ≠ [])
    (hissl : issuer.length ≤ 65535) (haudl : audience.length ≤ 65535)
    (html : issuedTime.length ≤ 65535) (hdat : data.length ≤ 65535)
    (hbin : binding.length ≤ 65535) :
    jsCountersignedFromSerialized verify
      (rawLayout 0 1 id options issuer audience issuedTime data binding
        ++ sig) issuer audience skew binding keys nowIso =
      if (keys.any fun k =>
          verify k
            (rawLayout 0 1 id options issuer audience issuedTime data
              binding) sig) then
        .ok { version := 0, type := 1, id := id, options := options,
              issuer := issuer, audience := audience,
              issuedTime := issuedTime, data := data, binding := binding,
              raw := rawLayout 0 0 id options issuer audience issuedTime
                data binding,
              signature := sig,
              encoded := rawLayout 0 0 id options issuer audience issuedTime
                data binding ++ sig }
      else .error .invalidSignature := by
  unfold jsCountersignedFromSerialized
  rw [jsDeserialize_rawLayout 0 1 id options issuer audience issuedTime data
    binding sig hid hissl haudl html hdat hbin]
  rw [asciiDecodeJs_asciiEncode (originMatch_ascii hiss),
    asciiDecodeJs_asciiEncode (originMatch_ascii haud),
    asciiDecodeJs_asciiEncode htm]
  simp only
  rw [if_neg (by simp), if_neg (by simp), if_neg (by simp),
    if_neg (by simp), if_neg (by simp),
    if_neg (by simp [jsSkewExceeded_eq_false])]
  have hctor : jsCountersignedTokenMk id options issuer audience issuedTime
      data binding sig nowIso =
      .ok { version := 0, type := 1, id := id, options := options,
            issuer := issuer, audience := audience,
            issuedTime := issuedTime, data := data, binding := binding,
            raw := rawLayout 0 0 id options issuer audience issuedTime data
              binding,
            signature := sig,
            encoded := rawLayout 0 0 id options issuer audience issuedTime
              data binding ++ sig } := by
    unfold jsCountersignedTokenMk
    rw [jsRecoveryTokenMk_ok id options issuer audience issuedTime data
      binding sig nowIso hid hopt hiss haud htmne hissl haudl html hdat
      hbin]
    rfl
  rw [hctor]
  have hsigval : jsIsSignatureValid verify
      (rawLayout 0 1 id options issuer audience issuedTime data binding
        ++ sig) keys
      (some (rawLayout 0 1 id options issuer audience issuedTime data
        binding).length) =
      .ok (keys.any fun k =>
        verify k
          (rawLayout 0 1 id options issuer audience issuedTime data binding)
          sig) := by
    unfold jsIsSignatureValid
    simp only
    rw [List.take_left, List.drop_left]
  rw [hsigval]
  cases h : (keys.any fun k =>
      verify k (rawLayout 0 1 id options issuer audience issuedTime data
        binding) sig) with
  | false => rw [if_neg (by simp [h])]
  | true => rw [if_pos (by simp [h])]

theorem javaCS_wellformed {κ : Type} (verify : κ → Bytes → Bytes → Bool)
    (parseTime : Bytes → Option Int) (now : Int)
    (id : Bytes) (options : Nat)
    (issuer audience issuedTime data binding sig : Bytes)
    (keys : List κ) (skewSec : Int)
    (hid : id.length = 16)
    (hiss : originMatch issuer = true) (haud : originMatch audience = true)
    (htm : AsciiStr issuedTime)
    (hissl : issuer.length ≤ 65535) (haudl : audience.length ≤ 65535)
    (html : issuedTime.length ≤ 65535) (hdat : data.length ≤ 65535)
    (hbin : binding.length ≤ 65535) :
    javaCountersignedFromEncoded verify parseTime now
      (rawLayout 0 1 id options issuer audience issuedTime data binding
        ++ sig) issuer audience keys skewSec (some binding) =
      if (keys.any fun k =>
          verify k
            (rawLayout 0 1 id options issuer audience issuedTime data
              binding) sig) then
        (match parseTime issuedTime with
         | none => .error .unparsableTime
         | some tk =>
           if skewSec * 1000 < |tk - now| then .error .tokenExpired
           else .ok { version := 0, type := 1, id := id, options := options,
                      issuer := issuer, audience := audience,
                      issuedTime := issuedTime, data := data,
                      binding := binding, signature := sig,
                      decoded := rawLayout 0 1 id options issuer audience
                        issuedTime data binding ++ sig })
      else .error .sigInvalid := by
  unfold javaCountersignedFromEncoded javaTokenFromEncoded
  rw [javaParse_rawLayout 0 1 id options issuer audience issuedTime data
    binding sig hid hissl haudl html hdat hbin]
  rw [asciiDecodeJava_asciiEncode (originMatch_ascii hiss),
    asciiDecodeJava_asciiEncode (originMatch_ascii haud),
    asciiDecodeJava_asciiEncode htm]
  simp only
  rw [if_neg (by simp), if_neg (by simp [hiss]), if_neg (by simp [haud]),
    if_neg (by simp)]
  simp only
  rw [if_neg (by simp), if_neg (by simp), if_neg (by simp)]
  have hsigval : javaIsSignatureValid verify
      { version := 0, type := 1, id := id, options := options,
        issuer := issuer, audience := audience, issuedTime := issuedTime,
        data := data, binding := binding, signature := sig,
        decoded := rawLayout 0 1 id options issuer audience issuedTime data
          binding ++ sig } keys =
      (keys.any fun k =>
        verify k
          (rawLayout 0 1 id options issuer audience issuedTime data binding)
          sig) := by
    unfold javaIsSignatureValid
    simp only
    rw [show (rawLayout 0 1 id options issuer audience issuedTime data
        binding ++ sig).length - sig.length =
        (rawLayout 0 1 id options issuer audience issuedTime data
          binding).length from by simp]
    rw [List.take_left]
  rw [hsigval]
  cases h : (keys.any fun k =>
      verify k (rawLayout 0 1 id options issuer audience issuedTime data
        binding) sig) with
  | false => rw [if_pos rfl, if_neg (by simp)]
  | true => rw [if_neg (by simp), if_pos rfl]

/-- The validation order as the claim and spec §4.F state it, for
comparison with the implementations: (1) parse, (2) version 0x00 and type
0x01, (3) issuer then audience equality, (4) binding byte-equality,
(5) signature verifies under some supplied key over the canonical signing
input, (6) `|now - issuedTime|` within the allowed skew (via `parseTime`,
milliseconds), failing at the first check that does not hold. -/
def specOrderValidation {κ : Type} (verify : κ → Bytes → Bytes → Bool)
    (l : Bytes) (issuer audience : Bytes) (skew : Int) (binding : Bytes)
    (keys : List κ) (parseTime : Bytes → Option Int) (now : Int) :
    Except JsErr TokenFields :=
  match jsDeserialize l with
  | none => .error .rangeErr
  | some fields =>
    if fields.version ≠ 0 then .error .incorrectVersion
    else if fields.type ≠ 1 then .error .incorrectType
    else if fields.issuer ≠ issuer then .error .incorrectIssuer
    else if fields.audience ≠ audience then .error .incorrectAudience
    else if fields.binding ≠ binding then .error .incorrectBinding
    else if (keys.any fun k =>
        verify k (l.take fields.signatureIndex)
          (l.drop fields.signatureIndex)) = false then
      .error .invalidSignature
    else
      match parseTime fields.issuedTime with
      | none => .error .clockSkew
      | some tk =>
        if skew * 1000 < |tk - now| then .error .clockSkew
        else .ok fields

/-- A concrete well-formed countersigned token buffer: type 0x01, sample
issuer/audience, issuedTime `"2017"`, empty data and binding, one-byte
signature. -/
def csBuf : Bytes :=
  rawLayout 0 1 (List.replicate 16 7) 0 wIssuer wAudience wTime [] [] ++ [1]

/-- The token object `CountersignedToken.fromSerialized` builds from
`csBuf` (its rebuilt `raw` carries type byte 0x00, written by the
superclass constructor). -/
def csTok : JsToken :=
  { version := 0, type := 1, id := List.replicate 16 7, options := 0,
    issuer := wIssuer, audience := wAudience, issuedTime := wTime,
    data := [], binding := [],
    raw := rawLayout 0 0 (List.replicate 16 7) 0 wIssuer wAudience wTime
      [] [],
    signature := [1],
    encoded := rawLayout 0 0 (List.replicate 16 7) 0 wIssuer wAudience wTime
      [] [] ++ [1] }

/-- **C1 counterexample.** A concrete countersigned token passing checks
(1)-(5) — with a verifier under which the supplied key verifies — whose
issuedTime instant (0 ms, per the concrete `parseTime`) lies 7200 s before
`now` with `allowedClockSkew = 3600` s: validation in the claimed fixed
order fails at check (6) with the clock-skew error, but the JS
`CountersignedToken.fromSerialized` returns the token successfully — its
clock-skew comparison reads the nonexistent `Date` property `value` and
never fails — so it does not fail at the first failing check of the claimed
order. -/
theorem c1_counterexample :
    specOrderValidation (fun (_ : Unit) _ _ => true) csBuf wIssuer wAudience
      3600 [] [()] (fun _ => some 0) 7200000 = .error .clockSkew ∧
    jsCountersignedFromSerialized (fun (_ : Unit) _ _ => true) csBuf wIssuer
      wAudience 3600 [] [()] [] = .ok csTok := by
  constructor
  · decide
  · decide

/-- **C1 amended.** On well-formed countersigned tokens (valid origins,
ASCII nonempty issuedTime, in-range lengths) whose issuer, audience and
binding match the expected values: the Java constructor performs the
claimed checks in the claimed order — in particular a token whose signature
does not verify is rejected for the signature (regardless of its
issuedTime), and only a token passing the signature check can fail the
clock-skew window; the JS `fromSerialized` also rejects a failing signature
with the signature error, but its clock-skew comparison — executed before
signature verification and reading the nonexistent `Date` property `value`
— never fails, so a token passing checks (1)-(5) is accepted outright,
whatever its issuedTime.  When the expected issuer differs, both
implementations fail at the issuer check before binding, signature or
skew. -/
theorem c1_amended {κ : Type} (verify : κ → Bytes → Bytes → Bool)
    (parseTime : Bytes → Option Int) (now : Int)
    (id : Bytes) (options : Nat)
    (issuer audience issuedTime data binding sig nowIso : Bytes)
    (keys : List κ) (skew : Int)
    (hid : id.length = 16) (hopt : options ≤ 255)
    (hiss : originMatch issuer = true) (haud : originMatch audience = true)
    (htm : AsciiStr issuedTime) (htmne : issuedTime ≠ [])
    (hissl : issuer.length ≤ 65535) (haudl : audience.length ≤ 65535)
    (html : issuedTime.length ≤ 65535) (hdat : data.length ≤ 65535)
    (hbin : binding.length ≤ 65535) :
    (jsCountersignedFromSerialized verify
      (rawLayout 0 1 id options issuer audience issuedTime data binding
        ++ sig) issuer audience skew binding keys nowIso =
      if (keys.any fun k =>
          verify k
            (rawLayout 0 1 id options issuer audience issuedTime data
              binding) sig) then
        .ok { version := 0, type := 1, id := id, options := options,
              issuer := issuer, audience := audience,
              issuedTime := issuedTime, data := data, binding := binding,
              raw := rawLayout 0 0 id options issuer audience issuedTime
                data binding,
              signature := sig,
              encoded := rawLayout 0 0 id options issuer audience issuedTime
                data binding ++ sig }
      else .error .invalidSignature) ∧
    (javaCountersignedFromEncoded verify parseTime now
      (rawLayout 0 1 id options issuer audience issuedTime data binding
        ++ sig) issuer audience keys skew (some binding) =
      if (keys.any fun k =>
          verify k
            (rawLayout 0 1 id options issuer audience issuedTime data
              binding) sig) then
        (match parseTime issuedTime with
         | none => .error .unparsableTime
         | some tk =>
           if skew * 1000 < |tk - now| then .error .tokenExpired
           else .ok { version := 0, type := 1, id := id, options := options,
                      issuer := issuer, audience := audience,
                      issuedTime := issuedTime, data := data,
                      binding := binding, signature := sig,
                      decoded := rawLayout 0 1 id options issuer audience
                        issuedTime data binding ++ sig })
      else .error .sigInvalid) ∧
    (∀ expIss : Bytes, expIss ≠ issuer →
      jsCountersignedFromSerialized verify
        (rawLayout 0 1 id options issuer audience issuedTime data binding
          ++ sig) expIss audience skew binding keys nowIso =
        .error .incorrectIssuer) ∧
    (∀ expIss : Bytes, expIss ≠ issuer →
      javaCountersignedFromEncoded verify parseTime now
        (rawLayout 0 1 id options issuer audience issuedTime data binding
          ++ sig) expIss audience keys skew (some binding) =
        .error .issuerMismatch) := by
  refine ⟨jsCS_wellformed verify id options issuer audience issuedTime data
      binding sig nowIso keys skew hid hopt hiss haud htm htmne hissl haudl
      html hdat hbin,
    javaCS_wellformed verify parseTime now id options issuer audience
      issuedTime data binding sig keys skew hid hiss haud htm hissl haudl
      html hdat hbin, ?_, ?_⟩
  · intro expIss hne
    unfold jsCountersignedFromSerialized
    rw [jsDeserialize_rawLayout 0 1 id options issuer audience issuedTime
      data binding sig hid hissl haudl html hdat hbin]
    rw [asciiDecodeJs_asciiEncode (originMatch_ascii hiss),
      asciiDecodeJs_asciiEncode (originMatch_ascii haud),
      asciiDecodeJs_asciiEncode htm]
    simp only
    rw [if_neg (by simp), if_neg (by simp),
      if_pos (by simp; exact fun hc => hne hc.symm)]
  · intro expIss hne
    unfold javaCountersignedFromEncoded javaTokenFromEncoded
    rw [javaParse_rawLayout 0 1 id options issuer audience issuedTime data
      binding sig hid hissl haudl html hdat hbin]
    rw [asciiDecodeJava_asciiEncode (originMatch_ascii hiss),
      asciiDecodeJava_asciiEncode (originMatch_ascii haud),
      asciiDecodeJava_asciiEncode htm]
    simp only
    rw [if_neg (by simp), if_neg (by simp [hiss]), if_neg (by simp [haud]),
      if_neg (by simp)]
    simp only
    rw [if_pos (by simp; exact fun hc => hne hc.symm)]

/-- **C1 amended witness.** Concrete instantiations: a mismatched expected
issuer is rejected with the issuer error in JS, and a failing signature is
rejected for the signature in Java even though the issuedTime is 2 hours
stale. -/
theorem c1_amended_witness :
    jsCountersignedFromSerialized (fun (_ : Unit) _ _ => true) csBuf
      wAudience wAudience 3600 [] [()] [] = .error .incorrectIssuer ∧
    javaCountersignedFromEncoded (fun (_ : Unit) _ _ => false)
      (fun _ => some 0) 7200000 csBuf wIssuer wAudience [()] 3600 (some []) =
      .error .sigInvalid :=
  ⟨(c1_amended (fun (_ : Unit) _ _ => true) (fun _ => some 0) 7200000
      (List.replicate 16 7) 0 wIssuer wAudience wTime [] [] [1] [] [()] 3600
      (by decide) (by decide) (by decide) (by decide) (by decide)
      (by decide) (by decide) (by decide) (by decide) (by decide)
      (by decide)).2.2.1 wAudience (by decide),
   by
    unfold csBuf
    rw [(c1_amended (fun (_ : Unit) _ _ => false) (fun _ => some 0) 7200000
      (List.replicate 16 7) 0 wIssuer wAudience wTime [] [] [1] [] [()] 3600
      (by decide) (by decide) (by decide) (by decide) (by decide)
      (by decide) (by decide) (by decide) (by decide) (by decide)
      (by decide)).2.1]
    decide⟩

/-- **C2 (code bug).** At the failing input — a well-formed countersigned
token whose issuedTime instant (0 ms under the concrete `parseTime`) lies
2 hours before `now`, with `allowedClockSkew = 3600` s and a verifier under
which the supplied key verifies — the skew window is genuinely exceeded and
the Java constructor throws `TokenExpired` as the claim says, but the JS
`CountersignedToken.fromSerialized` returns the token: its comparison
`Math.abs(issuedTime.value - new Date().value) > allowedClockSkew * 1000`
reads the nonexistent `Date` property `value`, producing `NaN`, and every
`NaN` comparison is false. -/
theorem c2_code_bug :
    (3600 : Int) * 1000 < |(0 : Int) - 7200000| ∧
    jsSkewExceeded (3600 * 1000) = false ∧
    jsCountersignedFromSerialized (fun (_ : Unit) _ _ => true) csBuf wIssuer
      wAudience 3600 [] [()] [] = .ok csTok ∧
    javaCountersignedFromEncoded (fun (_ : Unit) _ _ => true)
      (fun _ => some 0) 7200000 csBuf wIssuer wAudience [()] 3600 (some []) =
      .error .tokenExpired := by
  refine ⟨by decide, rfl, by decide, by decide⟩
